import Mathlib

/-!
# Verification of the Transnet tender ingestion pipeline

Shallow embedding of `models.py` (the `SupportingDoc` and `TransnetTender`
classes) and `lambda_function.py` (the `lambda_handler` pipeline: normalize,
batch, dispatch) of the Function-Transnet repository, together with proofs
about the embedded code.

Modelling conventions:
* JSON scalar values as seen by the Python code after `json.loads` are the
  inductive `JVal`; Python `None` and JSON `null` coincide (`JVal.null`).
  Compound values (arrays / objects) do not occur in the item fields the
  pipeline reads and are omitted; for every operation the code performs on a
  field value (truthiness test, string methods, `strptime`) they behave like
  the other non-string scalars.
* A raw API item is an association list `RawItem`; `dict.get` is `dictGet` /
  `dictGetD`.
* Python exceptions are modelled with `Except PyErr`: `str.replace` on a
  non-string raises `AttributeError`, `datetime.strptime` on a non-string
  raises `TypeError` and on an unparsable string raises `ValueError`.
* String data is modelled at `List Char` level for ASCII text: `str.strip`
  strips the ASCII whitespace characters, `str.upper` / `str.lower` /
  `str.title` use the ASCII case mappings (`Char.toUpper` / `Char.toLower`
  agree with Python on ASCII; a "word" for `title` is a maximal run of
  letters).
* `datetime.strptime` is modelled for the single fixed format
  `%m/%d/%Y %I:%M:%S %p` used by the source, including the 1-or-2 digit
  numeric fields, the 4-digit year, whitespace runs for format blanks,
  case-insensitive AM/PM, and the range checks done by the `datetime`
  constructor (day of month, leap years, seconds below 60, year at least 1).
* The two external collaborators are modelled at their interface boundary:
  the HTTP fetch is a parameter `Except FetchErr (List RawItem)` (the
  extracted `result` list or the caught failure), and the SQS client is a
  parameter function from an entry list to `Except Unit SqsResp`
  (`send_message_batch` returning a response with `Successful` / `Failed`
  entry ids, or raising).
-/

namespace Transnet

/-- A JSON scalar value / Python value as read from a raw API item.
`null` also plays the role of Python `None`. -/
inductive JVal where
  | null
  | str (s : String)
  | num (n : Int)
  | boolean (b : Bool)
deriving DecidableEq, Repr

/-- A raw API item: the loosely typed mapping `response_item`. -/
abbrev RawItem := List (String × JVal)

/-- Python exception classes that the embedded code can raise or catch. -/
inductive PyErr where
  | keyError
  | valueError
  | typeError
  | attributeError
deriving DecidableEq, Repr

deriving instance DecidableEq for Except

/-- Python truthiness (`if not x`) for the modelled scalar values. -/
def pyTruthy : JVal → Bool
  | .null => false
  | .str s => s ≠ ""
  | .num n => n ≠ 0
  | .boolean b => b

/-- First-match association lookup, the read half of a Python `dict`. -/
def dictLookup : RawItem → String → Option JVal
  | [], _ => none
  | (k', v) :: rest, k => if k' = k then some v else dictLookup rest k

/-- Python `d.get(k)`: the stored value, or `None` when the key is absent. -/
def dictGet (d : RawItem) (k : String) : JVal :=
  (dictLookup d k).getD .null

/-- Python `d.get(k, default)`. -/
def dictGetD (d : RawItem) (k : String) (dflt : JVal) : JVal :=
  (dictLookup d k).getD dflt

/-! ## String normalization (`.replace('\n', ' ').replace('\r', '').strip()`
followed by `.title()` / `.upper()` / `.lower()`) -/

/-- The ASCII whitespace characters stripped by `str.strip()`. -/
def pyIsSpace (c : Char) : Bool :=
  c = ' ' || c = '\t' || c = '\n' || c = '\x0b' || c = '\x0c' || c = '\r'

/-- `str.replace('\n', ' ')`. -/
def replNL (l : List Char) : List Char :=
  l.map fun c => if c = '\n' then ' ' else c

/-- `str.replace('\r', '')`. -/
def delCR (l : List Char) : List Char :=
  l.filter fun c => c != '\r'

/-- Left strip of ASCII whitespace. -/
def lstrip (l : List Char) : List Char :=
  l.dropWhile pyIsSpace

/-- Right strip of ASCII whitespace. -/
def rstrip (l : List Char) : List Char :=
  (l.reverse.dropWhile pyIsSpace).reverse

/-- `str.strip()`. -/
def pyStrip (l : List Char) : List Char :=
  lstrip (rstrip l)

/-- `str.upper()` (ASCII). -/
def pyUpper (l : List Char) : List Char :=
  l.map Char.toUpper

/-- `str.lower()` (ASCII). -/
def pyLower (l : List Char) : List Char :=
  l.map Char.toLower

/-- One character of `str.title()`: uppercase a letter that starts a word
(previous character not a letter), lowercase a letter inside a word. -/
def titleChar (prevAlpha : Bool) (c : Char) : Char :=
  if c.isAlpha then (if prevAlpha then c.toLower else c.toUpper) else c

/-- `str.title()` (ASCII), threading the "previous character is a letter"
flag through the string. -/
def pyTitleAux (prevAlpha : Bool) : List Char → List Char
  | [] => []
  | c :: cs => titleChar prevAlpha c :: pyTitleAux c.isAlpha cs

/-- `str.title()` (ASCII). -/
def pyTitle (l : List Char) : List Char :=
  pyTitleAux false l

/-- `.replace('\n', ' ').replace('\r', '').strip()`, the shared cleaning
chain of every free-text field in `TransnetTender.from_api_response`. -/
def cleanLine (l : List Char) : List Char :=
  pyStrip (delCR (replNL l))

/-- Cleaning followed by a casing transform, as a `String` function. -/
def normWith (f : List Char → List Char) (s : String) : String :=
  ⟨f (cleanLine s.data)⟩

/-- `s.replace('\n', ' ').replace('\r', '').strip().title()`. -/
def normTitle (s : String) : String := normWith pyTitle s

/-- `s.replace('\n', ' ').replace('\r', '').strip().upper()`. -/
def normUpper (s : String) : String := normWith pyUpper s

/-- `s.replace('\n', ' ').replace('\r', '').strip().lower()`. -/
def normLower (s : String) : String := normWith pyLower s

/-- `response_item.get(key, '').replace('\n', ' ').replace('\r', '')
.strip().<casing>()`: the default `''` is used when the key is absent; a
present non-string value (for example JSON `null`, which `json.loads` turns
into Python `None`) has no `.replace` method, raising `AttributeError`. -/
def normTextField (item : RawItem) (key : String) (f : List Char → List Char) :
    Except PyErr String :=
  match dictGetD item key (.str "") with
  | .str s => .ok (normWith f s)
  | _ => .error .attributeError

/-! ## `datetime.strptime(s, '%m/%d/%Y %I:%M:%S %p')` -/

/-- A `datetime.datetime` value (date and time of day, second precision). -/
structure Datetime where
  year : Nat
  month : Nat
  day : Nat
  hour : Nat
  minute : Nat
  second : Nat
deriving DecidableEq, Repr

/-- Numeric value of an ASCII digit character. -/
def digitVal (c : Char) : Option Nat :=
  if c.isDigit then some (c.toNat - 48) else none

/-- Parse a 1-or-2 digit numeric `strptime` field (greedy two digits when two
are available, as the format's literal separators are never digits) with the
field's admissible value range. -/
def parseNum12 (lo hi : Nat) : List Char → Option (Nat × List Char)
  | c1 :: c2 :: rest =>
    match digitVal c1 with
    | none => none
    | some d1 =>
      match digitVal c2 with
      | some d2 =>
        let v := 10 * d1 + d2
        if lo ≤ v ∧ v ≤ hi then some (v, rest) else none
      | none =>
        if lo ≤ d1 ∧ d1 ≤ hi then some (d1, c2 :: rest) else none
  | [c1] =>
    match digitVal c1 with
    | none => none
    | some d1 => if lo ≤ d1 ∧ d1 ≤ hi then some (d1, []) else none
  | [] => none

/-- Parse the exactly-4-digit `%Y` field. -/
def parseYear4 : List Char → Option (Nat × List Char)
  | a :: b :: c :: d :: rest =>
    match digitVal a, digitVal b, digitVal c, digitVal d with
    | some x, some y, some z, some w => some (1000 * x + 100 * y + 10 * z + w, rest)
    | _, _, _, _ => none
  | _ => none

/-- Expect one literal character. -/
def expectChar (ch : Char) : List Char → Option (List Char)
  | c :: rest => if c = ch then some rest else none
  | [] => none

/-- A literal blank in a `strptime` format matches a nonempty whitespace run. -/
def skipWs1 : List Char → Option (List Char)
  | c :: rest => if pyIsSpace c then some (rest.dropWhile pyIsSpace) else none
  | [] => none

/-- Parse the `%p` field, case-insensitively; `true` means PM. -/
def parseAmPm : List Char → Option (Bool × List Char)
  | a :: m :: rest =>
    if a.toLower = 'a' && m.toLower = 'm' then some (false, rest)
    else if a.toLower = 'p' && m.toLower = 'm' then some (true, rest)
    else none
  | _ => none

/-- Gregorian leap year. -/
def isLeapYear (y : Nat) : Bool :=
  y % 4 = 0 && (y % 100 ≠ 0 || y % 400 = 0)

/-- Length of a month, as validated by the `datetime` constructor. -/
def daysInMonth (y m : Nat) : Nat :=
  if m = 2 then (if isLeapYear y then 29 else 28)
  else if m = 4 || m = 6 || m = 9 || m = 11 then 30
  else 31

/-- `datetime.strptime(s, '%m/%d/%Y %I:%M:%S %p')` on a string argument:
match the whole input against the format (month 1-12, day 1-31, 4-digit
year, 12-hour clock 1-12, minute 0-59, second 0-61, AM/PM), convert the
12-hour clock to the 24-hour clock, then apply the `datetime` constructor's
validation (year at least 1, day within the month, second below 60).
`none` is the `ValueError` outcome. -/
def parseTransnetDate (s : String) : Option Datetime := do
  let (m, r) ← parseNum12 1 12 s.data
  let r ← expectChar '/' r
  let (d, r) ← parseNum12 1 31 r
  let r ← expectChar '/' r
  let (y, r) ← parseYear4 r
  let r ← skipWs1 r
  let (i, r) ← parseNum12 1 12 r
  let r ← expectChar ':' r
  let (mi, r) ← parseNum12 0 59 r
  let r ← expectChar ':' r
  let (sec, r) ← parseNum12 0 61 r
  let r ← skipWs1 r
  let (pm, r) ← parseAmPm r
  if r = [] then
    let h := if pm then (if i = 12 then 12 else i + 12) else (if i = 12 then 0 else i)
    if 1 ≤ y ∧ d ≤ daysInMonth y m ∧ sec ≤ 59 then
      some ⟨y, m, d, h, mi, sec⟩
    else none
  else none

/-- `datetime.strptime(v, date_format)` on an arbitrary field value:
a non-string argument raises `TypeError`, an unparsable string raises
`ValueError`. -/
def strptimeTransnet (v : JVal) : Except PyErr Datetime :=
  match v with
  | .str s =>
    match parseTransnetDate s with
    | some d => .ok d
    | none => .error .valueError
  | _ => .error .typeError

/-- The body of one date-parsing `try` block in `from_api_response`:
read the field value, and when it is truthy run `strptime` on it. -/
def dateFieldTry (v : JVal) : Except PyErr (Option Datetime) :=
  if pyTruthy v then (strptimeTransnet v).map some else .ok none

/-- The `except (TypeError, ValueError)` handler around one date-parsing
`try` block: those two exception classes are turned into the logged-warning
outcome with the date left as `None`; any other exception would escape. -/
def catchDateErr (r : Except PyErr (Option Datetime)) : Except PyErr (Option Datetime) :=
  match r with
  | .error .typeError => .ok none
  | .error .valueError => .ok none
  | r => r

/-- The total result of one guarded date-parsing block: `none` for an
absent / falsy / non-string / unparsable value, the parsed timestamp for a
well-formed one.  `date_block_total` proves that
`catchDateErr (dateFieldTry v)` always computes `.ok (parseDateField v)`. -/
def parseDateField (v : JVal) : Option Datetime :=
  match v with
  | .str s => if s ≠ "" then parseTransnetDate s else none
  | _ => none

/-! ## `models.py`: `SupportingDoc` and `TransnetTender` -/

/-- `SupportingDoc`: a named downloadable link.  The `url` keeps the raw
field value, exactly as the constructor stores it. -/
structure SupportingDoc where
  name : String
  url : JVal
deriving DecidableEq, Repr

/-- A constructed `TransnetTender` instance: the base `TenderBase` fields
followed by the Transnet-specific fields, exactly the attributes set by
`TenderBase.__init__` and `TransnetTender.__init__`.  Note that the
validated `rowKey` is not among them. -/
structure TransnetTender where
  title : String
  description : String
  source : String
  published_date : Option Datetime
  closing_date : Option Datetime
  supporting_docs : List SupportingDoc
  tags : List String
  tender_number : String
  institution : String
  category : String
  tender_type : String
  location : String
  email : String
  contact_person : String
deriving DecidableEq, Repr

/-- `TransnetTender.from_api_response(response_item)`:
1. read `rowKey` and return `None` (the skip outcome) when it is falsy;
2. build the supporting-document list from a truthy `attachment` value;
3. parse the two date fields, each in its own `try/except (TypeError,
   ValueError)` block;
4. construct the instance, cleaning every free-text field with
   `.replace('\n', ' ').replace('\r', '').strip()` and the field's casing
   method; the text fields are evaluated in the order they appear in the
   `cls(...)` call, and the first failing one raises. -/
def from_api_response (item : RawItem) : Except PyErr (Option TransnetTender) :=
  let tender_id := dictGet item "rowKey"
  if pyTruthy tender_id = false then .ok none
  else
    let attachment_url := dictGet item "attachment"
    let doc_list : List SupportingDoc :=
      if pyTruthy attachment_url then [⟨"Tender Attachment", attachment_url⟩] else []
    (catchDateErr (dateFieldTry (dictGet item "publishedDate"))).bind fun pub_date =>
    (catchDateErr (dateFieldTry (dictGet item "closingDate"))).bind fun close_date =>
    (normTextField item "nameOfTender" pyTitle).bind fun title =>
    (normTextField item "descriptionOfTender" pyTitle).bind fun description =>
    (normTextField item "tenderNumber" pyUpper).bind fun tender_number =>
    (normTextField item "nameOfInstitution" pyUpper).bind fun institution =>
    (normTextField item "tenderCategory" pyTitle).bind fun category =>
    (normTextField item "tenderType" pyUpper).bind fun tender_type =>
    (normTextField item "locationOfService" pyTitle).bind fun location =>
    (normTextField item "contactPersonEmailAddress" pyLower).bind fun email =>
    (normTextField item "contactPersonName" pyTitle).bind fun contact_person =>
    .ok (some
      { title := title
        description := description
        source := "Transnet"
        published_date := pub_date
        closing_date := close_date
        supporting_docs := doc_list
        tags := []
        tender_number := tender_number
        institution := institution
        category := category
        tender_type := tender_type
        location := location
        email := email
        contact_person := contact_person })

/-! ## Transport representation (`to_dict`) -/

/-- Zero-padded two-digit rendering used by `datetime.isoformat`. -/
def pad2 (n : Nat) : String :=
  if n < 10 then "0" ++ toString n else toString n

/-- Zero-padded four-digit rendering used by `datetime.isoformat`. -/
def pad4 (n : Nat) : String :=
  if n < 10 then "000" ++ toString n
  else if n < 100 then "00" ++ toString n
  else if n < 1000 then "0" ++ toString n
  else toString n

/-- `datetime.isoformat()` for a whole-second datetime. -/
def Datetime.isoformat (d : Datetime) : String :=
  pad4 d.year ++ "-" ++ pad2 d.month ++ "-" ++ pad2 d.day ++ "T" ++
    pad2 d.hour ++ ":" ++ pad2 d.minute ++ ":" ++ pad2 d.second

/-- `SupportingDoc.to_dict()`. -/
def SupportingDoc.to_dict (d : SupportingDoc) : List (String × JVal) :=
  [("name", .str d.name), ("url", d.url)]

/-- The serialized form of a tender: the fixed-shape mapping produced by
`TransnetTender.to_dict()`, with the field names of the source. -/
structure TenderDict where
  title : String
  description : String
  source : String
  publishedDate : Option String
  closingDate : Option String
  supporting_docs : List (List (String × JVal))
  tags : List String
  tenderNumber : String
  institution : String
  category : String
  tenderType : String
  location : String
  email : String
  contactPerson : String
deriving DecidableEq, Repr

/-- `TransnetTender.to_dict()`: the base-class dictionary (dates rendered
with `isoformat()` or left as `None`) updated with the Transnet-specific
fields.  (`tags` is serialized element-wise in the source; records built by
the factory always carry an empty `tags` list.) -/
def TransnetTender.to_dict (t : TransnetTender) : TenderDict :=
  { title := t.title
    description := t.description
    source := t.source
    publishedDate := t.published_date.map Datetime.isoformat
    closingDate := t.closing_date.map Datetime.isoformat
    supporting_docs := t.supporting_docs.map SupportingDoc.to_dict
    tags := t.tags
    tenderNumber := t.tender_number
    institution := t.institution
    category := t.category
    tenderType := t.tender_type
    location := t.location
    email := t.email
    contactPerson := t.contact_person }

/-! ## `lambda_function.py`: normalization loop, batching, dispatch -/

/-- The exception classes named in the loop's
`except (KeyError, ValueError, TypeError)` clause. -/
def caughtByLoop : PyErr → Bool
  | .keyError => true
  | .valueError => true
  | .typeError => true
  | .attributeError => false

/-- The Step-2 loop of `lambda_handler`: apply the factory to every item,
collecting accepted records in order and one skip counter that is bumped
both by the `None` (skip) outcome and by a caught exception.  An exception
outside the `except` tuple propagates and aborts the whole handler. -/
def processLoop : List RawItem → Except PyErr (List TransnetTender × Nat)
  | [] => .ok ([], 0)
  | item :: rest =>
    match from_api_response item with
    | .ok (some t) => (processLoop rest).map fun p => (t :: p.1, p.2)
    | .ok none => (processLoop rest).map fun p => (p.1, p.2 + 1)
    | .error e =>
      if caughtByLoop e then (processLoop rest).map fun p => (p.1, p.2 + 1)
      else .error e

/-- Step 4's batching comprehension
`[lst[i:i+10] for i in range(0, len(lst), 10)]`:
`range(0, N, 10)` has `(N + 9) / 10` indices `10 * i`, and each slice
`lst[10*i : 10*i + 10]` is `(lst.drop (10 * i)).take 10`. -/
def chunk10 {α : Type} (l : List α) : List (List α) :=
  (List.range ((l.length + 9) / 10)).map fun i => (l.drop (10 * i)).take 10

/-- One entry of a `send_message_batch` call. -/
structure SqsEntry where
  id : String
  messageBody : TenderDict
  messageGroupId : String
deriving DecidableEq, Repr

/-- The `send_message_batch` response: the ids of the entries confirmed
sent (`Successful`) and of the rejected entries (`Failed`). -/
structure SqsResp where
  successful : List String
  failed : List String
deriving DecidableEq, Repr

/-- The SQS client boundary: one batched send either returns a response or
raises (the handler catches every exception class there). -/
abbrev SqsTransport := List SqsEntry → Except Unit SqsResp

/-- The entry list built for one batch: entry `i` of batch `batch_index`
gets the correlation id `tender_message_{batch_index}_{i}`, the tender
dictionary as its body, and the fixed group id `TransnetTenderScrape`. -/
def mkEntries (batch_index : Nat) (batch : List TenderDict) : List SqsEntry :=
  batch.enum.map fun p =>
    ⟨"tender_message_" ++ toString batch_index ++ "_" ++ toString p.1,
      p.2, "TransnetTenderScrape"⟩

/-- The Step-4 dispatch loop over the enumerated batches, starting at batch
index `bi`.  Returns the final `sent_count` and the list of batch indices
for which a transport call was actually made: an empty entry list is
skipped without a call; a successful call contributes
`len(response.get('Successful', []))`; a raised send is caught and
contributes nothing but does not stop the loop. -/
def sqsLoop (transport : SqsTransport) : Nat → List (List TenderDict) → Nat × List Nat
  | _, [] => (0, [])
  | bi, batch :: rest =>
    let entries := mkEntries bi batch
    if entries.isEmpty then sqsLoop transport (bi + 1) rest
    else
      let sentHere :=
        match transport entries with
        | .ok resp => resp.successful.length
        | .error _ => 0
      let tail := sqsLoop transport (bi + 1) rest
      (sentHere + tail.1, bi :: tail.2)

/-- The outcome of the Step-1 fetch, modelled at the interface boundary:
either the list extracted from the response's `result` key, or one of the
two caught failure classes. -/
inductive FetchErr where
  | requestException
  | jsonDecodeError
deriving DecidableEq, Repr

/-- The value returned by `lambda_handler`: a status code and a body that
is either an error description or a human-readable message. -/
inductive RespBody where
  | errorBody (s : String)
  | messageBody (s : String)
deriving DecidableEq, Repr

/-- The handler's return value. -/
structure HandlerResp where
  statusCode : Nat
  body : RespBody
deriving DecidableEq, Repr

/-- The whole `lambda_handler` run, parameterized by the fetch outcome and
the SQS transport.  The `Nat` component is the aggregate `sent_count`
(the value the handler logs in its completion line); the `HandlerResp`
component is the value returned to the invoker.  An exception escaping the
normalization loop aborts the run (`Except.error`). -/
def transnetRun (fetch : Except FetchErr (List RawItem)) (transport : SqsTransport) :
    Except PyErr (Nat × HandlerResp) :=
  match fetch with
  | .error .requestException =>
    .ok (0, ⟨502, .errorBody "Failed to fetch data from source API"⟩)
  | .error .jsonDecodeError =>
    .ok (0, ⟨502, .errorBody "Invalid JSON response from source API"⟩)
  | .ok api_data =>
    (processLoop api_data).map fun p =>
      let processed_tender_dicts := p.1.map TransnetTender.to_dict
      let message_batches := chunk10 processed_tender_dicts
      let sent := sqsLoop transport 0 message_batches
      (sent.1, ⟨200, .messageBody "Tender data processed and sent to SQS queue."⟩)

/-- `lambda_handler` proper: just the value returned to the invoker. -/
def lambda_handler (fetch : Except FetchErr (List RawItem)) (transport : SqsTransport) :
    Except PyErr HandlerResp :=
  (transnetRun fetch transport).map fun p => p.2

/-! ## Predicates used in the statements -/

/-- The character list has no leading and no trailing ASCII whitespace. -/
def noEdgeSpace (l : List Char) : Prop :=
  (∀ c, l.head? = some c → pyIsSpace c = false) ∧
  (∀ c, l.getLast? = some c → pyIsSpace c = false)

/-- A free-text value in its normal form for the casing transform `f`:
no newline or carriage return anywhere, no leading or trailing whitespace,
and a fixed point of `f`. -/
def normalizedText (f : List Char → List Char) (s : String) : Prop :=
  (∀ c ∈ s.data, c ≠ '\n' ∧ c ≠ '\r') ∧ noEdgeSpace s.data ∧ f s.data = s.data

/-- Substring test (used to inspect the handler's completion message). -/
def strContains (hay needle : String) : Bool :=
  hay.data.tails.any fun t => needle.data.isPrefixOf t

/-- Some field of a constructed record holds the given string unchanged
(including the name or url of a supporting document and the tags). -/
def recordCarries (t : TransnetTender) (idStr : String) : Bool :=
  t.title = idStr || t.description = idStr || t.source = idStr ||
  t.tender_number = idStr || t.institution = idStr || t.category = idStr ||
  t.tender_type = idStr || t.location = idStr || t.email = idStr ||
  t.contact_person = idStr ||
  t.supporting_docs.any (fun d => d.name = idStr || d.url = .str idStr) ||
  t.tags.contains idStr

/-- Every free-text field of the raw item is either absent or bound to a
string (the reading `response_item.get(key, '')` hands `.replace` a string). -/
def textFieldsOk (item : RawItem) : Prop :=
  ∀ key ∈ ["nameOfTender", "descriptionOfTender", "tenderNumber", "nameOfInstitution",
    "tenderCategory", "tenderType", "locationOfService", "contactPersonEmailAddress",
    "contactPersonName"], ∃ s, dictGetD item key (.str "") = .str s

/-- The contribution of one batch to the final `sent_count`: nothing for an
empty entry list (no transport call), the number of entries the transport
confirmed for a successful call, nothing for a raised call. -/
def groupSent (transport : SqsTransport) (bi : Nat) (batch : List TenderDict) : Nat :=
  if (mkEntries bi batch).isEmpty then 0
  else
    match transport (mkEntries bi batch) with
    | .ok resp => resp.successful.length
    | .error _ => 0

/-- The record a successful factory run constructs from the raw item, with
`s1`-`s9` the nine string values read for the text fields (in the order of
the `cls(...)` call). -/
def builtRecord (item : RawItem) (s1 s2 s3 s4 s5 s6 s7 s8 s9 : String) : TransnetTender :=
  { title := normTitle s1
    description := normTitle s2
    source := "Transnet"
    published_date := parseDateField (dictGet item "publishedDate")
    closing_date := parseDateField (dictGet item "closingDate")
    supporting_docs :=
      if pyTruthy (dictGet item "attachment") then
        [⟨"Tender Attachment", dictGet item "attachment"⟩]
      else []
    tags := []
    tender_number := normUpper s3
    institution := normUpper s4
    category := normTitle s5
    tender_type := normUpper s6
    location := normTitle s7
    email := normLower s8
    contact_person := normTitle s9 }

/-! ## Character-level lemmas for the ASCII case maps -/

theorem toNat_ofNat_of_valid {n : Nat} (h : n < 55296) : (Char.ofNat n).toNat = n := by
  rw [Char.ofNat, dif_pos (Or.inl h)]
  simp [Char.ofNatAux, Char.toNat, UInt32.toNat]

theorem charToNat_inj {c d : Char} (h : c.toNat = d.toNat) : c = d := by
  have h2 := Char.ofNat_toNat c
  rw [h, Char.ofNat_toNat] at h2
  exact h2.symm

theorem char_eq_iff_toNat {c d : Char} : c = d ↔ c.toNat = d.toNat :=
  ⟨fun h => h ▸ rfl, charToNat_inj⟩

theorem toUpper_toNat (c : Char) :
    (Char.toUpper c).toNat = if 97 ≤ c.toNat ∧ c.toNat ≤ 122 then c.toNat - 32 else c.toNat := by
  rw [Char.toUpper]
  split
  · exact toNat_ofNat_of_valid (by next h => omega)
  · rfl

theorem toLower_toNat (c : Char) :
    (Char.toLower c).toNat = if 65 ≤ c.toNat ∧ c.toNat ≤ 90 then c.toNat + 32 else c.toNat := by
  rw [Char.toLower]
  split
  · exact toNat_ofNat_of_valid (by next h => omega)
  · rfl

theorem isAlpha_iff_toNat {c : Char} :
    c.isAlpha = true ↔ (65 ≤ c.toNat ∧ c.toNat ≤ 90) ∨ (97 ≤ c.toNat ∧ c.toNat ≤ 122) := by
  simp only [Char.isAlpha, Char.isUpper, Char.isLower, Bool.or_eq_true, Bool.and_eq_true,
    decide_eq_true_eq, ge_iff_le, Char.le_def, UInt32.le_def, BitVec.le_def]
  exact Iff.rfl

theorem pyIsSpace_iff_toNat {c : Char} :
    pyIsSpace c = true ↔ (c.toNat = 32 ∨ c.toNat = 9 ∨ c.toNat = 10 ∨
      c.toNat = 11 ∨ c.toNat = 12 ∨ c.toNat = 13) := by
  have e1 : ' '.toNat = 32 := by decide
  have e2 : '\t'.toNat = 9 := by decide
  have e3 : '\n'.toNat = 10 := by decide
  have e4 : '\x0b'.toNat = 11 := by decide
  have e5 : '\x0c'.toNat = 12 := by decide
  have e6 : '\r'.toNat = 13 := by decide
  simp only [pyIsSpace, Bool.or_eq_true, decide_eq_true_eq, char_eq_iff_toNat,
    e1, e2, e3, e4, e5, e6]
  tauto

theorem eq_nl_iff_toNat {c : Char} : c = '\n' ↔ c.toNat = 10 := by
  rw [char_eq_iff_toNat]; exact Iff.rfl

theorem eq_cr_iff_toNat {c : Char} : c = '\r' ↔ c.toNat = 13 := by
  rw [char_eq_iff_toNat]; exact Iff.rfl

theorem pyIsSpace_toUpper (c : Char) : pyIsSpace (Char.toUpper c) = pyIsSpace c := by
  have h1 := toUpper_toNat c
  rw [Bool.eq_iff_iff, pyIsSpace_iff_toNat, pyIsSpace_iff_toNat]
  split at h1 <;> omega

theorem pyIsSpace_toLower (c : Char) : pyIsSpace (Char.toLower c) = pyIsSpace c := by
  have h1 := toLower_toNat c
  rw [Bool.eq_iff_iff, pyIsSpace_iff_toNat, pyIsSpace_iff_toNat]
  split at h1 <;> omega

theorem isAlpha_toUpper (c : Char) : (Char.toUpper c).isAlpha = c.isAlpha := by
  have h1 := toUpper_toNat c
  rw [Bool.eq_iff_iff, isAlpha_iff_toNat, isAlpha_iff_toNat]
  split at h1 <;> omega

theorem isAlpha_toLower (c : Char) : (Char.toLower c).isAlpha = c.isAlpha := by
  have h1 := toLower_toNat c
  rw [Bool.eq_iff_iff, isAlpha_iff_toNat, isAlpha_iff_toNat]
  split at h1 <;> omega

theorem toUpper_idem (c : Char) : Char.toUpper (Char.toUpper c) = Char.toUpper c := by
  apply charToNat_inj
  have h2 := toUpper_toNat c
  rw [toUpper_toNat (Char.toUpper c)]
  split at h2 <;> split <;> omega

theorem toLower_idem (c : Char) : Char.toLower (Char.toLower c) = Char.toLower c := by
  apply charToNat_inj
  have h2 := toLower_toNat c
  rw [toLower_toNat (Char.toLower c)]
  split at h2 <;> split <;> omega

theorem ne_nl_iff_toNat {c : Char} : c ≠ '\n' ↔ c.toNat ≠ 10 :=
  not_congr eq_nl_iff_toNat

theorem ne_cr_iff_toNat {c : Char} : c ≠ '\r' ↔ c.toNat ≠ 13 :=
  not_congr eq_cr_iff_toNat

theorem toUpper_ne_nl_cr {c : Char} (h : c ≠ '\n' ∧ c ≠ '\r') :
    Char.toUpper c ≠ '\n' ∧ Char.toUpper c ≠ '\r' := by
  rw [ne_nl_iff_toNat, ne_cr_iff_toNat] at h ⊢
  have h1 := toUpper_toNat c
  split at h1 <;> omega

theorem toLower_ne_nl_cr {c : Char} (h : c ≠ '\n' ∧ c ≠ '\r') :
    Char.toLower c ≠ '\n' ∧ Char.toLower c ≠ '\r' := by
  rw [ne_nl_iff_toNat, ne_cr_iff_toNat] at h ⊢
  have h1 := toLower_toNat c
  split at h1 <;> omega

theorem pyIsSpace_titleChar (b : Bool) (c : Char) :
    pyIsSpace (titleChar b c) = pyIsSpace c := by
  unfold titleChar
  split
  · split
    · exact pyIsSpace_toLower c
    · exact pyIsSpace_toUpper c
  · rfl

theorem isAlpha_titleChar (b : Bool) (c : Char) :
    (titleChar b c).isAlpha = c.isAlpha := by
  unfold titleChar
  split
  · split
    · exact isAlpha_toLower c
    · exact isAlpha_toUpper c
  · rfl

theorem toLower_toNat_of_alpha {c : Char} (h : c.isAlpha = true) :
    97 ≤ (Char.toLower c).toNat ∧ (Char.toLower c).toNat ≤ 122 := by
  rw [isAlpha_iff_toNat] at h
  have h1 := toLower_toNat c
  split at h1 <;> omega

theorem toUpper_toNat_of_alpha {c : Char} (h : c.isAlpha = true) :
    65 ≤ (Char.toUpper c).toNat ∧ (Char.toUpper c).toNat ≤ 90 := by
  rw [isAlpha_iff_toNat] at h
  have h1 := toUpper_toNat c
  split at h1 <;> omega

theorem titleChar_titleChar (b : Bool) (c : Char) :
    titleChar b (titleChar b c) = titleChar b c := by
  by_cases ha : c.isAlpha = true
  · cases b with
    | true =>
      have e : titleChar true c = Char.toLower c := by
        unfold titleChar
        rw [if_pos ha, if_pos rfl]
      rw [e]
      unfold titleChar
      rw [if_pos (by rw [isAlpha_toLower]; exact ha), if_pos rfl]
      exact toLower_idem c
    | false =>
      have e : titleChar false c = Char.toUpper c := by
        unfold titleChar
        rw [if_pos ha, if_neg (by simp)]
      rw [e]
      unfold titleChar
      rw [if_pos (by rw [isAlpha_toUpper]; exact ha), if_neg (by simp)]
      exact toUpper_idem c
  · have e : titleChar b c = c := by
      unfold titleChar
      rw [if_neg ha]
    simp only [e]

theorem titleChar_ne_nl_cr {b : Bool} {c : Char} (h : c ≠ '\n' ∧ c ≠ '\r') :
    titleChar b c ≠ '\n' ∧ titleChar b c ≠ '\r' := by
  unfold titleChar
  split
  · split
    · exact toLower_ne_nl_cr h
    · exact toUpper_ne_nl_cr h
  · exact h

/-! ## List-level lemmas about the cleaning chain -/

theorem mem_replNL_ne_nl {l : List Char} {c : Char} (h : c ∈ replNL l) : c ≠ '\n' := by
  unfold replNL at h
  rw [List.mem_map] at h
  obtain ⟨c', _, hc⟩ := h
  subst hc
  split
  · decide
  · assumption

theorem mem_delCR_ne_cr {l : List Char} {c : Char} (h : c ∈ delCR l) : c ≠ '\r' := by
  unfold delCR at h
  rw [List.mem_filter] at h
  have := h.2
  simp only [bne_iff_ne, ne_eq] at this
  exact this

theorem mem_delCR_sub {l : List Char} {c : Char} (h : c ∈ delCR l) : c ∈ l := by
  unfold delCR at h
  exact (List.mem_filter.mp h).1

theorem mem_pyStrip_sub {l : List Char} {c : Char} (h : c ∈ pyStrip l) : c ∈ l := by
  unfold pyStrip lstrip rstrip at h
  have h1 := (List.dropWhile_sublist pyIsSpace).subset h
  rw [List.mem_reverse] at h1
  have h2 := (List.dropWhile_sublist pyIsSpace).subset h1
  rw [List.mem_reverse] at h2
  exact h2

theorem mem_cleanLine_ne_nl_cr {l : List Char} {c : Char} (h : c ∈ cleanLine l) :
    c ≠ '\n' ∧ c ≠ '\r' := by
  unfold cleanLine at h
  have h1 := mem_pyStrip_sub h
  exact ⟨mem_replNL_ne_nl (mem_delCR_sub h1), mem_delCR_ne_cr h1⟩

theorem mem_pyTitleAux_ne_nl_cr {l : List Char} {b : Bool}
    (hl : ∀ c ∈ l, c ≠ '\n' ∧ c ≠ '\r') :
    ∀ c ∈ pyTitleAux b l, c ≠ '\n' ∧ c ≠ '\r' := by
  induction l generalizing b with
  | nil => intro c hc; cases hc
  | cons a as ih =>
    intro c hc
    rw [pyTitleAux, List.mem_cons] at hc
    rcases hc with hc | hc
    · subst hc
      exact titleChar_ne_nl_cr (hl a (List.mem_cons_self a as))
    · exact ih (fun c hc => hl c (List.mem_cons_of_mem a hc)) c hc

/-! ## Head / last lemmas for stripping -/

theorem head?_dropWhile_not {p : Char → Bool} {l : List Char} {c : Char}
    (h : (l.dropWhile p).head? = some c) : p c = false := by
  induction l with
  | nil => cases h
  | cons a as ih =>
    rw [List.dropWhile_cons] at h
    split at h
    · exact ih h
    · next hp =>
      rw [List.head?_cons, Option.some.injEq] at h
      subst h
      exact Bool.of_not_eq_true hp

theorem dropWhile_eq_self_of_head {p : Char → Bool} {l : List Char}
    (h : ∀ c, l.head? = some c → p c = false) : l.dropWhile p = l := by
  cases l with
  | nil => rfl
  | cons a as =>
    rw [List.dropWhile_cons, if_neg]
    rw [h a rfl]
    simp

theorem getLast?_dropWhile_of_ne_nil {p : Char → Bool} {l : List Char}
    (h : l.dropWhile p ≠ []) : (l.dropWhile p).getLast? = l.getLast? := by
  induction l with
  | nil => cases h rfl
  | cons a as ih =>
    rw [List.dropWhile_cons]
    rw [List.dropWhile_cons] at h
    split
    · next hp =>
      rw [if_pos hp] at h
      rw [ih h]
      cases as with
      | nil => simp [List.dropWhile] at h
      | cons b bs => rw [List.getLast?_cons_cons]
    · rfl

theorem noEdgeSpace_pyStrip (l : List Char) : noEdgeSpace (pyStrip l) := by
  constructor
  · intro c hc
    exact head?_dropWhile_not hc
  · intro c hc
    unfold pyStrip lstrip at hc
    by_cases hne : (rstrip l).dropWhile pyIsSpace = []
    · rw [hne] at hc; cases hc
    · rw [getLast?_dropWhile_of_ne_nil hne] at hc
      unfold rstrip at hc
      rw [List.getLast?_reverse] at hc
      exact head?_dropWhile_not hc

theorem pyStrip_eq_self {l : List Char} (h : noEdgeSpace l) : pyStrip l = l := by
  have hr : rstrip l = l := by
    unfold rstrip
    rw [dropWhile_eq_self_of_head, List.reverse_reverse]
    intro c hc
    rw [List.head?_reverse] at hc
    exact h.2 c hc
  unfold pyStrip lstrip
  rw [hr]
  exact dropWhile_eq_self_of_head h.1

theorem noEdgeSpace_map {g : Char → Char} (hg : ∀ c, pyIsSpace (g c) = pyIsSpace c)
    {l : List Char} (h : noEdgeSpace l) : noEdgeSpace (l.map g) := by
  constructor
  · intro c hc
    rw [List.head?_map] at hc
    cases hh : l.head? with
    | none => rw [hh] at hc; cases hc
    | some a =>
      rw [hh, Option.map_some'] at hc
      rw [Option.some.injEq] at hc
      subst hc
      rw [hg a]
      exact h.1 a hh
  · intro c hc
    rw [List.getLast?_map] at hc
    cases hh : l.getLast? with
    | none => rw [hh] at hc; cases hc
    | some a =>
      rw [hh, Option.map_some'] at hc
      rw [Option.some.injEq] at hc
      subst hc
      rw [hg a]
      exact h.2 a hh

theorem getLast?_pyTitleAux {l : List Char} {b : Bool} {c : Char}
    (h : (pyTitleAux b l).getLast? = some c) :
    ∃ b' c', l.getLast? = some c' ∧ c = titleChar b' c' := by
  induction l generalizing b with
  | nil => cases h
  | cons a as ih =>
    cases as with
    | nil =>
      rw [pyTitleAux, pyTitleAux] at h
      rw [List.getLast?_singleton, Option.some.injEq] at h
      exact ⟨b, a, rfl, h.symm⟩
    | cons x xs =>
      rw [pyTitleAux] at h
      rw [show pyTitleAux a.isAlpha (x :: xs) = titleChar a.isAlpha x :: pyTitleAux x.isAlpha xs from rfl] at h
      rw [List.getLast?_cons_cons] at h
      rw [show titleChar a.isAlpha x :: pyTitleAux x.isAlpha xs = pyTitleAux a.isAlpha (x :: xs) from rfl] at h
      obtain ⟨b', c', hc', he⟩ := ih h
      exact ⟨b', c', by rw [List.getLast?_cons_cons]; exact hc', he⟩

theorem noEdgeSpace_pyTitleAux {l : List Char} {b : Bool} (h : noEdgeSpace l) :
    noEdgeSpace (pyTitleAux b l) := by
  constructor
  · intro c hc
    cases l with
    | nil => cases hc
    | cons a as =>
      rw [pyTitleAux, List.head?_cons, Option.some.injEq] at hc
      subst hc
      rw [pyIsSpace_titleChar]
      exact h.1 a rfl
  · intro c hc
    obtain ⟨b', c', hc', he⟩ := getLast?_pyTitleAux hc
    subst he
    rw [pyIsSpace_titleChar]
    exact h.2 c' hc'

/-! ## Fixed-point and identity lemmas -/

theorem pyUpper_idem (l : List Char) : pyUpper (pyUpper l) = pyUpper l := by
  unfold pyUpper
  rw [List.map_map]
  exact List.map_congr_left fun c _ => toUpper_idem c

theorem pyLower_idem (l : List Char) : pyLower (pyLower l) = pyLower l := by
  unfold pyLower
  rw [List.map_map]
  exact List.map_congr_left fun c _ => toLower_idem c

theorem pyTitleAux_idem (l : List Char) (b : Bool) :
    pyTitleAux b (pyTitleAux b l) = pyTitleAux b l := by
  induction l generalizing b with
  | nil => rfl
  | cons a as ih =>
    rw [pyTitleAux, pyTitleAux, titleChar_titleChar, isAlpha_titleChar, ih]

theorem pyTitle_idem (l : List Char) : pyTitle (pyTitle l) = pyTitle l :=
  pyTitleAux_idem l false

theorem replNL_eq_self {l : List Char} (h : ∀ c ∈ l, c ≠ '\n') : replNL l = l := by
  unfold replNL
  have he : ∀ c ∈ l, (if c = '\n' then ' ' else c) = (fun c => c) c := by
    intro c hc
    rw [if_neg (h c hc)]
  rw [List.map_congr_left he]
  exact List.map_id l

theorem delCR_eq_self {l : List Char} (h : ∀ c ∈ l, c ≠ '\r') : delCR l = l := by
  unfold delCR
  rw [List.filter_eq_self]
  intro c hc
  simp only [bne_iff_ne, ne_eq]
  exact h c hc

theorem cleanLine_eq_self {l : List Char} (h1 : ∀ c ∈ l, c ≠ '\n' ∧ c ≠ '\r')
    (h2 : noEdgeSpace l) : cleanLine l = l := by
  unfold cleanLine
  rw [replNL_eq_self (fun c hc => (h1 c hc).1), delCR_eq_self (fun c hc => (h1 c hc).2),
    pyStrip_eq_self h2]

theorem noEdgeSpace_cleanLine (l : List Char) : noEdgeSpace (cleanLine l) :=
  noEdgeSpace_pyStrip _

/-! ## The three field normalizers produce normalized text and are idempotent -/

theorem normTitle_normalized (s : String) : normalizedText pyTitle (normTitle s) := by
  refine ⟨?_, ?_, ?_⟩
  · exact mem_pyTitleAux_ne_nl_cr (fun c hc => mem_cleanLine_ne_nl_cr hc)
  · exact noEdgeSpace_pyTitleAux (noEdgeSpace_cleanLine _)
  · exact pyTitle_idem _

theorem normUpper_normalized (s : String) : normalizedText pyUpper (normUpper s) := by
  refine ⟨?_, ?_, ?_⟩
  · intro c hc
    rw [show (normUpper s).data = pyUpper (cleanLine s.data) from rfl] at hc
    unfold pyUpper at hc
    rw [List.mem_map] at hc
    obtain ⟨c', hc', rfl⟩ := hc
    exact toUpper_ne_nl_cr (mem_cleanLine_ne_nl_cr hc')
  · exact noEdgeSpace_map pyIsSpace_toUpper (noEdgeSpace_cleanLine _)
  · exact pyUpper_idem _

theorem normLower_normalized (s : String) : normalizedText pyLower (normLower s) := by
  refine ⟨?_, ?_, ?_⟩
  · intro c hc
    rw [show (normLower s).data = pyLower (cleanLine s.data) from rfl] at hc
    unfold pyLower at hc
    rw [List.mem_map] at hc
    obtain ⟨c', hc', rfl⟩ := hc
    exact toLower_ne_nl_cr (mem_cleanLine_ne_nl_cr hc')
  · exact noEdgeSpace_map pyIsSpace_toLower (noEdgeSpace_cleanLine _)
  · exact pyLower_idem _

theorem normWith_eq_self {f : List Char → List Char} {s : String}
    (h : normalizedText f s) : normWith f s = s := by
  unfold normWith
  rw [cleanLine_eq_self h.1 h.2.1, h.2.2]

theorem normTitle_idem (s : String) : normTitle (normTitle s) = normTitle s :=
  normWith_eq_self (normTitle_normalized s)

theorem normUpper_idem (s : String) : normUpper (normUpper s) = normUpper s :=
  normWith_eq_self (normUpper_normalized s)

theorem normLower_idem (s : String) : normLower (normLower s) = normLower s :=
  normWith_eq_self (normLower_normalized s)

/-! ## Inversion lemmas for the factory -/

theorem except_bind_ok_iff {α β : Type} {x : Except PyErr α} {f : α → Except PyErr β} {b : β} :
    x.bind f = .ok b ↔ ∃ a, x = .ok a ∧ f a = .ok b := by
  cases x with
  | error e => simp [Except.bind]
  | ok a => simp [Except.bind]

theorem normTextField_ok_iff {item : RawItem} {key : String} {f : List Char → List Char}
    {v : String} :
    normTextField item key f = .ok v ↔
      ∃ s, dictGetD item key (.str "") = .str s ∧ v = normWith f s := by
  unfold normTextField
  split
  · next s heq =>
    constructor
    · intro h
      rw [Except.ok.injEq] at h
      exact ⟨s, heq, h.symm⟩
    · rintro ⟨s', hs', rfl⟩
      rw [heq, JVal.str.injEq] at hs'
      rw [hs']
  · next h2 =>
    constructor
    · intro h; cases h
    · rintro ⟨s', hs', rfl⟩
      exact absurd hs' (h2 s')

theorem normTextField_error_of_not_str {item : RawItem} {key : String}
    {f : List Char → List Char} (h : ∀ s, dictGetD item key (.str "") ≠ .str s) :
    normTextField item key f = .error .attributeError := by
  unfold normTextField
  split
  · next s heq => exact absurd heq (h s)
  · rfl

theorem date_block_total (v : JVal) :
    catchDateErr (dateFieldTry v) = .ok (parseDateField v) := by
  cases v with
  | null => rfl
  | str s =>
    by_cases h : s = ""
    · subst h; rfl
    · have ht : pyTruthy (.str s) = true := by simp [pyTruthy, h]
      cases hp : parseTransnetDate s with
      | some d =>
        simp [dateFieldTry, ht, strptimeTransnet, hp, Except.map, catchDateErr, parseDateField, h]
      | none =>
        simp [dateFieldTry, ht, strptimeTransnet, hp, Except.map, catchDateErr, parseDateField, h]
  | num n =>
    by_cases h : n = 0
    · subst h; rfl
    · have ht : pyTruthy (.num n) = true := by simp [pyTruthy, h]
      unfold dateFieldTry
      rw [if_pos ht]
      rfl
  | boolean b => cases b <;> rfl

/-- Full characterization of the successful factory outcome: the id must be
truthy, all nine text fields must read back strings, and the constructed
record is exactly `builtRecord`. -/
theorem factory_ok_some_iff {item : RawItem} {t : TransnetTender} :
    from_api_response item = .ok (some t) ↔
      pyTruthy (dictGet item "rowKey") = true ∧
      ∃ s1 s2 s3 s4 s5 s6 s7 s8 s9,
        dictGetD item "nameOfTender" (.str "") = .str s1 ∧
        dictGetD item "descriptionOfTender" (.str "") = .str s2 ∧
        dictGetD item "tenderNumber" (.str "") = .str s3 ∧
        dictGetD item "nameOfInstitution" (.str "") = .str s4 ∧
        dictGetD item "tenderCategory" (.str "") = .str s5 ∧
        dictGetD item "tenderType" (.str "") = .str s6 ∧
        dictGetD item "locationOfService" (.str "") = .str s7 ∧
        dictGetD item "contactPersonEmailAddress" (.str "") = .str s8 ∧
        dictGetD item "contactPersonName" (.str "") = .str s9 ∧
        t = builtRecord item s1 s2 s3 s4 s5 s6 s7 s8 s9 := by
  unfold from_api_response
  cases hid : pyTruthy (dictGet item "rowKey") with
  | false =>
    rw [if_pos (by rw [hid])]
    constructor
    · intro h
      rw [Except.ok.injEq] at h
      cases h
    · rintro ⟨h1, -⟩
      cases h1
  | true =>
    rw [if_neg (by rw [hid]; decide)]
    rw [date_block_total, date_block_total]
    constructor
    · intro h
      rw [except_bind_ok_iff] at h
      obtain ⟨pd, hpd, h⟩ := h
      rw [Except.ok.injEq] at hpd
      subst hpd
      rw [except_bind_ok_iff] at h
      obtain ⟨cd, hcd, h⟩ := h
      rw [Except.ok.injEq] at hcd
      subst hcd
      rw [except_bind_ok_iff] at h
      obtain ⟨title, ht1, h⟩ := h
      rw [normTextField_ok_iff] at ht1
      obtain ⟨s1, hs1, hv1⟩ := ht1
      rw [except_bind_ok_iff] at h
      obtain ⟨description, ht2, h⟩ := h
      rw [normTextField_ok_iff] at ht2
      obtain ⟨s2, hs2, hv2⟩ := ht2
      rw [except_bind_ok_iff] at h
      obtain ⟨tender_number, ht3, h⟩ := h
      rw [normTextField_ok_iff] at ht3
      obtain ⟨s3, hs3, hv3⟩ := ht3
      rw [except_bind_ok_iff] at h
      obtain ⟨institution, ht4, h⟩ := h
      rw [normTextField_ok_iff] at ht4
      obtain ⟨s4, hs4, hv4⟩ := ht4
      rw [except_bind_ok_iff] at h
      obtain ⟨category, ht5, h⟩ := h
      rw [normTextField_ok_iff] at ht5
      obtain ⟨s5, hs5, hv5⟩ := ht5
      rw [except_bind_ok_iff] at h
      obtain ⟨tender_type, ht6, h⟩ := h
      rw [normTextField_ok_iff] at ht6
      obtain ⟨s6, hs6, hv6⟩ := ht6
      rw [except_bind_ok_iff] at h
      obtain ⟨location, ht7, h⟩ := h
      rw [normTextField_ok_iff] at ht7
      obtain ⟨s7, hs7, hv7⟩ := ht7
      rw [except_bind_ok_iff] at h
      obtain ⟨email, ht8, h⟩ := h
      rw [normTextField_ok_iff] at ht8
      obtain ⟨s8, hs8, hv8⟩ := ht8
      rw [except_bind_ok_iff] at h
      obtain ⟨contact_person, ht9, h⟩ := h
      rw [normTextField_ok_iff] at ht9
      obtain ⟨s9, hs9, hv9⟩ := ht9
      rw [Except.ok.injEq, Option.some.injEq] at h
      subst hv1; subst hv2; subst hv3; subst hv4; subst hv5
      subst hv6; subst hv7; subst hv8; subst hv9
      refine ⟨rfl, s1, s2, s3, s4, s5, s6, s7, s8, s9,
        hs1, hs2, hs3, hs4, hs5, hs6, hs7, hs8, hs9, ?_⟩
      rw [← h]
      rfl
    · rintro ⟨-, s1, s2, s3, s4, s5, s6, s7, s8, s9,
        hs1, hs2, hs3, hs4, hs5, hs6, hs7, hs8, hs9, rfl⟩
      rw [except_bind_ok_iff]
      refine ⟨_, rfl, ?_⟩
      rw [except_bind_ok_iff]
      refine ⟨_, rfl, ?_⟩
      rw [except_bind_ok_iff]
      refine ⟨_, normTextField_ok_iff.mpr ⟨s1, hs1, rfl⟩, ?_⟩
      rw [except_bind_ok_iff]
      refine ⟨_, normTextField_ok_iff.mpr ⟨s2, hs2, rfl⟩, ?_⟩
      rw [except_bind_ok_iff]
      refine ⟨_, normTextField_ok_iff.mpr ⟨s3, hs3, rfl⟩, ?_⟩
      rw [except_bind_ok_iff]
      refine ⟨_, normTextField_ok_iff.mpr ⟨s4, hs4, rfl⟩, ?_⟩
      rw [except_bind_ok_iff]
      refine ⟨_, normTextField_ok_iff.mpr ⟨s5, hs5, rfl⟩, ?_⟩
      rw [except_bind_ok_iff]
      refine ⟨_, normTextField_ok_iff.mpr ⟨s6, hs6, rfl⟩, ?_⟩
      rw [except_bind_ok_iff]
      refine ⟨_, normTextField_ok_iff.mpr ⟨s7, hs7, rfl⟩, ?_⟩
      rw [except_bind_ok_iff]
      refine ⟨_, normTextField_ok_iff.mpr ⟨s8, hs8, rfl⟩, ?_⟩
      rw [except_bind_ok_iff]
      refine ⟨_, normTextField_ok_iff.mpr ⟨s9, hs9, rfl⟩, ?_⟩
      rfl

/-- The skip outcome happens exactly when the identifier value is falsy
(absent key, JSON `null`, empty string, or another falsy scalar). -/
theorem factory_ok_none_iff {item : RawItem} :
    from_api_response item = .ok none ↔ pyTruthy (dictGet item "rowKey") = false := by
  unfold from_api_response
  cases hid : pyTruthy (dictGet item "rowKey") with
  | false =>
    rw [if_pos (by rw [hid])]
    exact iff_of_true rfl rfl
  | true =>
    rw [if_neg (by rw [hid]; decide)]
    rw [date_block_total, date_block_total]
    constructor
    · intro h
      rw [except_bind_ok_iff] at h; obtain ⟨a1, -, h⟩ := h
      rw [except_bind_ok_iff] at h; obtain ⟨a2, -, h⟩ := h
      rw [except_bind_ok_iff] at h; obtain ⟨a3, -, h⟩ := h
      rw [except_bind_ok_iff] at h; obtain ⟨a4, -, h⟩ := h
      rw [except_bind_ok_iff] at h; obtain ⟨a5, -, h⟩ := h
      rw [except_bind_ok_iff] at h; obtain ⟨a6, -, h⟩ := h
      rw [except_bind_ok_iff] at h; obtain ⟨a7, -, h⟩ := h
      rw [except_bind_ok_iff] at h; obtain ⟨a8, -, h⟩ := h
      rw [except_bind_ok_iff] at h; obtain ⟨a9, -, h⟩ := h
      rw [except_bind_ok_iff] at h; obtain ⟨a10, -, h⟩ := h
      rw [except_bind_ok_iff] at h; obtain ⟨a11, -, h⟩ := h
      simp at h
    · intro h
      cases h

/-- With a truthy identifier and the first text field (`nameOfTender`)
bound to JSON `null`, the factory raises `AttributeError`
(`None.replace` does not exist). -/
theorem factory_error_of_null_title {item : RawItem}
    (hid : pyTruthy (dictGet item "rowKey") = true)
    (hnull : dictLookup item "nameOfTender" = some .null) :
    from_api_response item = .error .attributeError := by
  unfold from_api_response
  rw [if_neg (by rw [hid]; decide)]
  rw [date_block_total, date_block_total]
  have : normTextField item "nameOfTender" pyTitle = .error .attributeError := by
    unfold normTextField
    rw [show dictGetD item "nameOfTender" (.str "") = .null by
      unfold dictGetD; rw [hnull]; rfl]
  rw [this]
  rfl

/-! ## Lemmas about the normalization loop -/

theorem processLoop_cons_some {item : RawItem} {t : TransnetTender} {rest : List RawItem}
    (h : from_api_response item = .ok (some t)) :
    processLoop (item :: rest) = (processLoop rest).map fun p => (t :: p.1, p.2) := by
  simp only [processLoop, h]

theorem processLoop_cons_none {item : RawItem} {rest : List RawItem}
    (h : from_api_response item = .ok none) :
    processLoop (item :: rest) = (processLoop rest).map fun p => (p.1, p.2 + 1) := by
  simp only [processLoop, h]

theorem processLoop_cons_attr {item : RawItem} {rest : List RawItem}
    (h : from_api_response item = .error .attributeError) :
    processLoop (item :: rest) = .error .attributeError := by
  simp only [processLoop, h]
  rfl

/-- `dictGet` and `dictGetD` on an item with an overridden `rowKey` read the
underlying item for every other key. -/
theorem dictLookup_cons_ne {k k' : String} {v : JVal} {item : RawItem} (h : k' ≠ k) :
    dictLookup ((k', v) :: item) k = dictLookup item k := by
  simp only [dictLookup]
  rw [if_neg h]

/-- The factory never reads the identifier after validating it: overriding
`rowKey` with any truthy values gives identical results. -/
theorem factory_rowKey_irrelevant (item : RawItem) (v₁ v₂ : JVal)
    (h₁ : pyTruthy v₁ = true) (h₂ : pyTruthy v₂ = true) :
    from_api_response (("rowKey", v₁) :: item) =
      from_api_response (("rowKey", v₂) :: item) := by
  unfold from_api_response
  have e : ∀ v : JVal, dictGet (("rowKey", v) :: item) "rowKey" = v := by
    intro v
    unfold dictGet dictLookup
    rw [if_pos rfl]
    rfl
  have ene : ∀ (k : String) (v : JVal), k ≠ "rowKey" →
      dictGet (("rowKey", v) :: item) k = dictGet item k := by
    intro k v hk
    unfold dictGet
    rw [dictLookup_cons_ne (Ne.symm hk)]
  have eneD : ∀ (k : String) (v dflt : JVal), k ≠ "rowKey" →
      dictGetD (("rowKey", v) :: item) k dflt = dictGetD item k dflt := by
    intro k v dflt hk
    unfold dictGetD
    rw [dictLookup_cons_ne (Ne.symm hk)]
  have enormt : ∀ (k : String) (v : JVal) (f : List Char → List Char), k ≠ "rowKey" →
      normTextField (("rowKey", v) :: item) k f = normTextField item k f := by
    intro k v f hk
    unfold normTextField
    rw [eneD k v _ hk]
  rw [e v₁, e v₂, if_neg (by rw [h₁]; decide), if_neg (by rw [h₂]; decide)]
  rw [ene "attachment" v₁ (by decide), ene "attachment" v₂ (by decide)]
  rw [ene "publishedDate" v₁ (by decide), ene "publishedDate" v₂ (by decide)]
  rw [ene "closingDate" v₁ (by decide), ene "closingDate" v₂ (by decide)]
  rw [enormt "nameOfTender" v₁ _ (by decide), enormt "nameOfTender" v₂ _ (by decide)]
  rw [enormt "descriptionOfTender" v₁ _ (by decide), enormt "descriptionOfTender" v₂ _ (by decide)]
  rw [enormt "tenderNumber" v₁ _ (by decide), enormt "tenderNumber" v₂ _ (by decide)]
  rw [enormt "nameOfInstitution" v₁ _ (by decide), enormt "nameOfInstitution" v₂ _ (by decide)]
  rw [enormt "tenderCategory" v₁ _ (by decide), enormt "tenderCategory" v₂ _ (by decide)]
  rw [enormt "tenderType" v₁ _ (by decide), enormt "tenderType" v₂ _ (by decide)]
  rw [enormt "locationOfService" v₁ _ (by decide), enormt "locationOfService" v₂ _ (by decide)]
  rw [enormt "contactPersonEmailAddress" v₁ _ (by decide),
    enormt "contactPersonEmailAddress" v₂ _ (by decide)]
  rw [enormt "contactPersonName" v₁ _ (by decide), enormt "contactPersonName" v₂ _ (by decide)]

/-! ## Lemmas about the batching comprehension -/

theorem chunk10_nil {α : Type} : chunk10 ([] : List α) = [] := by
  simp [chunk10]

theorem chunk10_cons {α : Type} {l : List α} (h : l ≠ []) :
    chunk10 l = l.take 10 :: chunk10 (l.drop 10) := by
  have hn : 1 ≤ l.length := List.length_pos.mpr h
  have he : (l.length + 9) / 10 = ((l.drop 10).length + 9) / 10 + 1 := by
    rw [List.length_drop]; omega
  unfold chunk10
  rw [he, List.range_succ_eq_map, List.map_cons, Nat.mul_zero, List.drop_zero, List.map_map]
  congr 1
  apply List.map_congr_left
  intro i _
  simp only [Function.comp]
  rw [List.drop_drop]
  have e10 : 10 * Nat.succ i = 10 + 10 * i := by omega
  rw [e10]

theorem chunk10_flatten_aux {α : Type} (n : Nat) :
    ∀ l : List α, l.length ≤ n → (chunk10 l).flatten = l := by
  induction n with
  | zero =>
    intro l hl
    rw [List.length_eq_zero.mp (Nat.le_zero.mp hl), chunk10_nil]
    rfl
  | succ n ih =>
    intro l hl
    by_cases h : l = []
    · rw [h, chunk10_nil]; rfl
    · rw [chunk10_cons h, List.flatten_cons,
        ih (l.drop 10) (by rw [List.length_drop]; have := List.length_pos.mpr h; omega)]
      exact List.take_append_drop 10 l

theorem chunk10_flatten {α : Type} (l : List α) : (chunk10 l).flatten = l :=
  chunk10_flatten_aux l.length l Nat.le.refl

theorem chunk10_length {α : Type} (l : List α) :
    (chunk10 l).length = (l.length + 9) / 10 := by
  unfold chunk10
  rw [List.length_map, List.length_range]

theorem chunk10_getElem? {α : Type} (l : List α) (i : Nat)
    (hi : i < (l.length + 9) / 10) :
    (chunk10 l)[i]? = some ((l.drop (10 * i)).take 10) := by
  unfold chunk10
  rw [List.getElem?_map, List.getElem?_range hi]
  rfl

theorem mem_chunk10_le {α : Type} {l : List α} {g : List α} (h : g ∈ chunk10 l) :
    g.length ≤ 10 := by
  unfold chunk10 at h
  rw [List.mem_map] at h
  obtain ⟨i, -, rfl⟩ := h
  rw [List.length_take]
  omega

theorem chunk10_full {α : Type} {l : List α} {i : Nat} {g : List α}
    (hi : i + 1 < (chunk10 l).length) (hg : (chunk10 l)[i]? = some g) :
    g.length = 10 := by
  rw [chunk10_length] at hi
  rw [chunk10_getElem? l i (by omega)] at hg
  rw [Option.some.injEq] at hg
  subst hg
  rw [List.length_take, List.length_drop]
  omega

theorem chunk10_getLast {α : Type} {l : List α} (h : l ≠ []) {g : List α}
    (hg : (chunk10 l).getLast? = some g) : 1 ≤ g.length ∧ g.length ≤ 10 := by
  have hn : 1 ≤ l.length := List.length_pos.mpr h
  have hlen : (chunk10 l).length = (l.length + 9) / 10 := chunk10_length l
  rw [List.getLast?_eq_getElem?, hlen] at hg
  rw [chunk10_getElem? l _ (by omega)] at hg
  rw [Option.some.injEq] at hg
  subst hg
  rw [List.length_take, List.length_drop]
  omega

/-! ## Lemmas about the dispatch loop -/

theorem mkEntries_length (bi : Nat) (batch : List TenderDict) :
    (mkEntries bi batch).length = batch.length := by
  unfold mkEntries
  rw [List.length_map, List.enum_length]

theorem mkEntries_eq_nil_iff {bi : Nat} {batch : List TenderDict} :
    mkEntries bi batch = [] ↔ batch = [] := by
  rw [← List.length_eq_zero, mkEntries_length, List.length_eq_zero]

theorem mkEntries_isEmpty_iff {bi : Nat} {batch : List TenderDict} :
    (mkEntries bi batch).isEmpty = true ↔ batch = [] := by
  rw [List.isEmpty_iff, mkEntries_eq_nil_iff]

theorem sqsLoop_cons_empty {t : SqsTransport} {bi : Nat} {batch : List TenderDict}
    {rest : List (List TenderDict)} (h : (mkEntries bi batch).isEmpty = true) :
    sqsLoop t bi (batch :: rest) = sqsLoop t (bi + 1) rest := by
  show (let entries := mkEntries bi batch
    if entries.isEmpty then sqsLoop t (bi + 1) rest
    else
      let sentHere :=
        match t entries with
        | .ok resp => resp.successful.length
        | .error _ => 0
      let tail := sqsLoop t (bi + 1) rest
      (sentHere + tail.1, bi :: tail.2)) = sqsLoop t (bi + 1) rest
  rw [if_pos h]

theorem sqsLoop_cons_nonempty {t : SqsTransport} {bi : Nat} {batch : List TenderDict}
    {rest : List (List TenderDict)} (h : ¬ (mkEntries bi batch).isEmpty = true) :
    sqsLoop t bi (batch :: rest) =
      (groupSent t bi batch + (sqsLoop t (bi + 1) rest).1,
        bi :: (sqsLoop t (bi + 1) rest).2) := by
  show (let entries := mkEntries bi batch
    if entries.isEmpty then sqsLoop t (bi + 1) rest
    else
      let sentHere :=
        match t entries with
        | .ok resp => resp.successful.length
        | .error _ => 0
      let tail := sqsLoop t (bi + 1) rest
      (sentHere + tail.1, bi :: tail.2)) = _
  rw [if_neg h]
  unfold groupSent
  rw [if_neg h]

theorem sqsLoop_fst (t : SqsTransport) :
    ∀ (bs : List (List TenderDict)) (bi : Nat),
      (sqsLoop t bi bs).1 = ((List.enumFrom bi bs).map fun p => groupSent t p.1 p.2).sum := by
  intro bs
  induction bs with
  | nil => intro bi; rfl
  | cons b rest ih =>
    intro bi
    simp only [List.enumFrom_cons, List.map_cons, List.sum_cons]
    by_cases h : (mkEntries bi b).isEmpty = true
    · rw [sqsLoop_cons_empty h, ih (bi + 1)]
      have hg : groupSent t bi b = 0 := by unfold groupSent; rw [if_pos h]
      rw [hg]
      omega
    · rw [sqsLoop_cons_nonempty h]
      rw [show (groupSent t bi b + (sqsLoop t (bi + 1) rest).1,
        bi :: (sqsLoop t (bi + 1) rest).2).1 =
        groupSent t bi b + (sqsLoop t (bi + 1) rest).1 from rfl]
      rw [ih (bi + 1)]

theorem sqsLoop_snd (t : SqsTransport) :
    ∀ (bs : List (List TenderDict)) (bi : Nat),
      (sqsLoop t bi bs).2 = (List.enumFrom bi bs).filterMap
        fun p => if (mkEntries p.1 p.2).isEmpty then none else some p.1 := by
  intro bs
  induction bs with
  | nil => intro bi; rfl
  | cons b rest ih =>
    intro bi
    simp only [List.enumFrom_cons, List.filterMap_cons]
    by_cases h : (mkEntries bi b).isEmpty = true
    · rw [if_pos h, sqsLoop_cons_empty h]
      exact ih (bi + 1)
    · rw [if_neg h, sqsLoop_cons_nonempty h]
      rw [show (groupSent t bi b + (sqsLoop t (bi + 1) rest).1,
        bi :: (sqsLoop t (bi + 1) rest).2).2 =
        bi :: (sqsLoop t (bi + 1) rest).2 from rfl]
      rw [ih (bi + 1)]

theorem sqsLoop_calls_ge (t : SqsTransport) :
    ∀ (bs : List (List TenderDict)) (bi j : Nat),
      j ∈ (sqsLoop t bi bs).2 → bi ≤ j := by
  intro bs
  induction bs with
  | nil => intro bi j h; cases h
  | cons b rest ih =>
    intro bi j h
    by_cases he : (mkEntries bi b).isEmpty = true
    · rw [sqsLoop_cons_empty he] at h
      have := ih (bi + 1) j h
      omega
    · rw [sqsLoop_cons_nonempty he] at h
      rw [show (groupSent t bi b + (sqsLoop t (bi + 1) rest).1,
        bi :: (sqsLoop t (bi + 1) rest).2).2 =
        bi :: (sqsLoop t (bi + 1) rest).2 from rfl] at h
      rw [List.mem_cons] at h
      rcases h with h | h
      · omega
      · have := ih (bi + 1) j h
        omega

theorem sqsLoop_calls_count (t : SqsTransport) :
    ∀ (bs : List (List TenderDict)) (bi j : Nat),
      ((sqsLoop t bi bs).2).count j ≤ 1 := by
  intro bs
  induction bs with
  | nil => intro bi j; simp [sqsLoop]
  | cons b rest ih =>
    intro bi j
    by_cases he : (mkEntries bi b).isEmpty = true
    · rw [sqsLoop_cons_empty he]
      exact ih (bi + 1) j
    · rw [sqsLoop_cons_nonempty he]
      rw [show (groupSent t bi b + (sqsLoop t (bi + 1) rest).1,
        bi :: (sqsLoop t (bi + 1) rest).2).2 =
        bi :: (sqsLoop t (bi + 1) rest).2 from rfl]
      rw [List.count_cons]
      by_cases hj : j = bi
      · subst hj
        have hnot : j ∉ (sqsLoop t (j + 1) rest).2 := by
          intro hmem
          have := sqsLoop_calls_ge t rest (j + 1) j hmem
          omega
        rw [List.count_eq_zero.mpr hnot]
        simp
      · rw [if_neg (by intro hx; simp at hx; omega)]
        have := ih (bi + 1) j
        omega

theorem sqsLoop_mem_calls (t : SqsTransport) :
    ∀ (bs : List (List TenderDict)) (bi i : Nat) (b : List TenderDict),
      bs[i]? = some b →
        (b ≠ [] → (bi + i) ∈ (sqsLoop t bi bs).2) ∧
        (b = [] → (bi + i) ∉ (sqsLoop t bi bs).2) := by
  intro bs
  induction bs with
  | nil => intro bi i b h; cases h
  | cons hd rest ih =>
    intro bi i b h
    cases i with
    | zero =>
      rw [List.getElem?_cons_zero, Option.some.injEq] at h
      subst h
      by_cases he : (mkEntries bi hd).isEmpty = true
      · have hb : hd = [] := mkEntries_isEmpty_iff.mp he
        rw [sqsLoop_cons_empty he]
        constructor
        · intro hne; exact absurd hb hne
        · intro _ hmem
          have := sqsLoop_calls_ge t rest (bi + 1) (bi + 0) hmem
          omega
      · have hb : hd ≠ [] := fun hb => he (mkEntries_isEmpty_iff.mpr hb)
        rw [sqsLoop_cons_nonempty he]
        rw [show (groupSent t bi hd + (sqsLoop t (bi + 1) rest).1,
          bi :: (sqsLoop t (bi + 1) rest).2).2 =
          bi :: (sqsLoop t (bi + 1) rest).2 from rfl]
        constructor
        · intro _
          rw [show bi + 0 = bi from rfl]
          exact List.mem_cons_self bi _
        · intro hb2; exact absurd hb2 hb
    | succ i =>
      rw [List.getElem?_cons_succ] at h
      have hrec := ih (bi + 1) i b h
      have hidx : bi + (i + 1) = (bi + 1) + i := by omega
      by_cases he : (mkEntries bi hd).isEmpty = true
      · rw [sqsLoop_cons_empty he]
        constructor
        · intro hne
          rw [hidx]
          exact hrec.1 hne
        · intro hb
          rw [hidx]
          exact hrec.2 hb
      · rw [sqsLoop_cons_nonempty he]
        rw [show (groupSent t bi hd + (sqsLoop t (bi + 1) rest).1,
          bi :: (sqsLoop t (bi + 1) rest).2).2 =
          bi :: (sqsLoop t (bi + 1) rest).2 from rfl]
        constructor
        · intro hne
          rw [List.mem_cons]
          right
          rw [hidx]
          exact hrec.1 hne
        · intro hb hmem
          rw [List.mem_cons] at hmem
          rcases hmem with hmem | hmem
          · omega
          · rw [hidx] at hmem
            exact hrec.2 hb hmem

/-! ## Small helpers shared by the claim theorems -/

theorem dictGetD_of_lookup_none {item : RawItem} {k : String} (dflt : JVal)
    (h : dictLookup item k = none) : dictGetD item k dflt = dflt := by
  unfold dictGetD
  rw [h]
  rfl

theorem transnetRun_ok_resp {items : List RawItem} {t : SqsTransport} {n : Nat}
    {r : HandlerResp} (h : transnetRun (.ok items) t = .ok (n, r)) :
    r = ⟨200, .messageBody "Tender data processed and sent to SQS queue."⟩ := by
  rw [show transnetRun (.ok items) t = Except.map
      (fun p : List TransnetTender × Nat =>
        ((sqsLoop t 0 (chunk10 (List.map TransnetTender.to_dict p.1))).1,
          (⟨200, .messageBody "Tender data processed and sent to SQS queue."⟩ : HandlerResp)))
      (processLoop items) from rfl] at h
  cases hp : processLoop items with
  | error e =>
    rw [hp] at h
    cases h
  | ok p =>
    rw [hp] at h
    rw [show Except.map
      (fun p : List TransnetTender × Nat =>
        ((sqsLoop t 0 (chunk10 (List.map TransnetTender.to_dict p.1))).1,
          (⟨200, .messageBody "Tender data processed and sent to SQS queue."⟩ : HandlerResp)))
      (.ok p) = .ok ((sqsLoop t 0 (chunk10 (List.map TransnetTender.to_dict p.1))).1,
        (⟨200, .messageBody "Tender data processed and sent to SQS queue."⟩ : HandlerResp))
      from rfl] at h
    rw [Except.ok.injEq, Prod.mk.injEq] at h
    exact h.2.symm

theorem normTextField_cases (item : RawItem) (key : String) (f : List Char → List Char) :
    normTextField item key f = .error .attributeError ∨
    ∃ s, normTextField item key f = .ok s := by
  unfold normTextField
  split
  · exact Or.inr ⟨_, rfl⟩
  · exact Or.inl rfl

/-- The factory has exactly three possible outcomes: the skip `None`, a
constructed record, or an `AttributeError` (the only exception the text
normalizations can raise; the date blocks always end normally). -/
theorem factory_cases (item : RawItem) :
    from_api_response item = .ok none ∨
    (∃ t, from_api_response item = .ok (some t)) ∨
    from_api_response item = .error .attributeError := by
  unfold from_api_response
  cases hid : pyTruthy (dictGet item "rowKey") with
  | false =>
    rw [if_pos (by rw [hid])]
    exact Or.inl rfl
  | true =>
    rw [if_neg (by rw [hid]; decide)]
    rw [date_block_total, date_block_total]
    rcases normTextField_cases item "nameOfTender" pyTitle with h1 | ⟨s1, h1⟩
    · exact Or.inr (Or.inr (by rw [h1]; rfl))
    rcases normTextField_cases item "descriptionOfTender" pyTitle with h2 | ⟨s2, h2⟩
    · exact Or.inr (Or.inr (by rw [h1, h2]; rfl))
    rcases normTextField_cases item "tenderNumber" pyUpper with h3 | ⟨s3, h3⟩
    · exact Or.inr (Or.inr (by rw [h1, h2, h3]; rfl))
    rcases normTextField_cases item "nameOfInstitution" pyUpper with h4 | ⟨s4, h4⟩
    · exact Or.inr (Or.inr (by rw [h1, h2, h3, h4]; rfl))
    rcases normTextField_cases item "tenderCategory" pyTitle with h5 | ⟨s5, h5⟩
    · exact Or.inr (Or.inr (by rw [h1, h2, h3, h4, h5]; rfl))
    rcases normTextField_cases item "tenderType" pyUpper with h6 | ⟨s6, h6⟩
    · exact Or.inr (Or.inr (by rw [h1, h2, h3, h4, h5, h6]; rfl))
    rcases normTextField_cases item "locationOfService" pyTitle with h7 | ⟨s7, h7⟩
    · exact Or.inr (Or.inr (by rw [h1, h2, h3, h4, h5, h6, h7]; rfl))
    rcases normTextField_cases item "contactPersonEmailAddress" pyLower with h8 | ⟨s8, h8⟩
    · exact Or.inr (Or.inr (by rw [h1, h2, h3, h4, h5, h6, h7, h8]; rfl))
    rcases normTextField_cases item "contactPersonName" pyTitle with h9 | ⟨s9, h9⟩
    · exact Or.inr (Or.inr (by rw [h1, h2, h3, h4, h5, h6, h7, h8, h9]; rfl))
    rw [h1, h2, h3, h4, h5, h6, h7, h8, h9]
    exact Or.inr (Or.inl ⟨_, rfl⟩)

/-! ## Claim theorems -/

/-- C1, counterexample: the raw item `{"rowKey": "ZZZ"}` has a valid
identifier and the factory does construct a record from it, but no field of
that record holds the identifier `"ZZZ"`: the claim that the record carries
the input identifier in a `tender_id`-bearing field is false. -/
theorem claim1_counterexample :
    from_api_response [("rowKey", JVal.str "ZZZ")] =
      .ok (some (builtRecord [("rowKey", JVal.str "ZZZ")] "" "" "" "" "" "" "" "" "")) ∧
    recordCarries (builtRecord [("rowKey", JVal.str "ZZZ")] "" "" "" "" "" "" "" "" "")
      "ZZZ" = false := by
  constructor
  · decide
  · decide

/-- C1, amended: for every raw item with a truthy `rowKey` (and text fields
readable as strings) the factory does construct a record, but the record
does not carry the identifier: the identifier is used only for the
validation check (and warning messages), so any two truthy `rowKey` values
yield identical records. -/
theorem claim1_identifier_validated_not_stored :
    (∀ item : RawItem, pyTruthy (dictGet item "rowKey") = true → textFieldsOk item →
      ∃ t, from_api_response item = .ok (some t)) ∧
    (∀ (item : RawItem) (v₁ v₂ : JVal), pyTruthy v₁ = true → pyTruthy v₂ = true →
      from_api_response (("rowKey", v₁) :: item) =
        from_api_response (("rowKey", v₂) :: item)) := by
  constructor
  · intro item hid hfields
    obtain ⟨s1, hs1⟩ := hfields "nameOfTender" (by decide)
    obtain ⟨s2, hs2⟩ := hfields "descriptionOfTender" (by decide)
    obtain ⟨s3, hs3⟩ := hfields "tenderNumber" (by decide)
    obtain ⟨s4, hs4⟩ := hfields "nameOfInstitution" (by decide)
    obtain ⟨s5, hs5⟩ := hfields "tenderCategory" (by decide)
    obtain ⟨s6, hs6⟩ := hfields "tenderType" (by decide)
    obtain ⟨s7, hs7⟩ := hfields "locationOfService" (by decide)
    obtain ⟨s8, hs8⟩ := hfields "contactPersonEmailAddress" (by decide)
    obtain ⟨s9, hs9⟩ := hfields "contactPersonName" (by decide)
    exact ⟨builtRecord item s1 s2 s3 s4 s5 s6 s7 s8 s9,
      factory_ok_some_iff.mpr ⟨hid, s1, s2, s3, s4, s5, s6, s7, s8, s9,
        hs1, hs2, hs3, hs4, hs5, hs6, hs7, hs8, hs9, rfl⟩⟩
  · exact factory_rowKey_irrelevant

/-- C1, witness for the amended claim at concrete inputs. -/
theorem claim1_witness :
    (∃ t, from_api_response [("rowKey", JVal.str "A"), ("nameOfTender", JVal.str "x")] =
      .ok (some t)) ∧
    from_api_response [("rowKey", JVal.str "A")] =
      from_api_response [("rowKey", JVal.str "B")] :=
  ⟨claim1_identifier_validated_not_stored.1
      [("rowKey", JVal.str "A"), ("nameOfTender", JVal.str "x")] (by decide)
      (by
        intro key hk
        simp only [List.mem_cons, List.not_mem_nil, or_false] at hk
        rcases hk with rfl | rfl | rfl | rfl | rfl | rfl | rfl | rfl | rfl
        · exact ⟨"x", rfl⟩
        · exact ⟨"", rfl⟩
        · exact ⟨"", rfl⟩
        · exact ⟨"", rfl⟩
        · exact ⟨"", rfl⟩
        · exact ⟨"", rfl⟩
        · exact ⟨"", rfl⟩
        · exact ⟨"", rfl⟩
        · exact ⟨"", rfl⟩),
    claim1_identifier_validated_not_stored.2 [] (JVal.str "A") (JVal.str "B")
      (by decide) (by decide)⟩

/-- C2: for a raw item whose `rowKey` is missing or bound to the empty
string, the factory returns the skip outcome `None` (never a record and
never an exception), and the normalization loop counts the item as one
skip, leaving the accepted list untouched. -/
theorem claim2_skip_on_missing_or_empty_id :
    ∀ item : RawItem,
      (dictLookup item "rowKey" = none ∨ dictLookup item "rowKey" = some (.str "")) →
      from_api_response item = .ok none ∧
      (∀ rest, processLoop (item :: rest) =
        (processLoop rest).map fun p => (p.1, p.2 + 1)) ∧
      (∀ e : PyErr, from_api_response item ≠ .error e) := by
  intro item h
  have hfalse : pyTruthy (dictGet item "rowKey") = false := by
    rcases h with h | h
    · unfold dictGet
      rw [h]
      rfl
    · unfold dictGet
      rw [h]
      rfl
  have hskip : from_api_response item = .ok none := factory_ok_none_iff.mpr hfalse
  refine ⟨hskip, fun rest => processLoop_cons_none hskip, fun e he => ?_⟩
  rw [hskip] at he
  cases he

/-- C2, witness: the spec's scenario B item `{"nameOfTender": "X"}` is
skipped and counted. -/
theorem claim2_witness :
    from_api_response [("nameOfTender", JVal.str "X")] = .ok none ∧
    processLoop [[("nameOfTender", JVal.str "X")]] = .ok ([], 1) := by
  have h := claim2_skip_on_missing_or_empty_id [("nameOfTender", JVal.str "X")] (Or.inl rfl)
  refine ⟨h.1, ?_⟩
  rw [h.2.1 []]
  rfl

/-- C7: the loop's `except (KeyError, ValueError, TypeError)` clause does
not cover the `AttributeError` raised when a text field is bound to JSON
`null` (`None.replace` does not exist), so the exception escapes the loop
and aborts the whole run before later items are processed: the second,
perfectly valid item is never reached and nothing is counted as a skip. -/
theorem claim7_uncaught_attribute_error :
    from_api_response [("rowKey", JVal.str "T1"), ("nameOfTender", JVal.null)] =
      .error .attributeError ∧
    caughtByLoop .attributeError = false ∧
    processLoop [[("rowKey", JVal.str "T1"), ("nameOfTender", JVal.null)],
      [("rowKey", JVal.str "T2")]] = .error .attributeError ∧
    transnetRun (.ok [[("rowKey", JVal.str "T1"), ("nameOfTender", JVal.null)],
      [("rowKey", JVal.str "T2")]]) (fun _ => .ok ⟨[], []⟩) = .error .attributeError := by
  refine ⟨by decide, rfl, by decide, by decide⟩

/-- C10, counterexample: for the item `{"rowKey": "T1", "nameOfTender":
null}` the pipeline does not convert the failure into a skip (the claimed
outcome `.ok ([], 1)`), and the factory's exception is `AttributeError`,
not `TypeError`: the run aborts. -/
theorem claim10_counterexample :
    processLoop [[("rowKey", JVal.str "T1"), ("nameOfTender", JVal.null)]] ≠
      .ok ([], 1) ∧
    from_api_response [("rowKey", JVal.str "T1"), ("nameOfTender", JVal.null)] ≠
      .error .typeError ∧
    processLoop [[("rowKey", JVal.str "T1"), ("nameOfTender", JVal.null)]] =
      .error .attributeError := by
  refine ⟨by decide, by decide, by decide⟩

/-- C10, amended: any of the nine text-field keys present but bound to
JSON `null` makes the factory raise `AttributeError` (not `TypeError`);
the loop's `except (KeyError, ValueError, TypeError)` clause does not
catch it, so instead of a skip the exception aborts the run, and no record
(in particular none with an empty string for that field) is produced. -/
theorem claim10_null_field_aborts :
    ∀ (item : RawItem) (rest : List RawItem) (key : String),
      key ∈ ["nameOfTender", "descriptionOfTender", "tenderNumber", "nameOfInstitution",
        "tenderCategory", "tenderType", "locationOfService", "contactPersonEmailAddress",
        "contactPersonName"] →
      pyTruthy (dictGet item "rowKey") = true →
      dictLookup item key = some .null →
      from_api_response item = .error .attributeError ∧
      processLoop (item :: rest) = .error .attributeError ∧
      (∀ t : TransnetTender, from_api_response item ≠ .ok (some t)) ∧
      from_api_response item ≠ .error .typeError := by
  intro item rest key hkey hid hnull
  have hD : dictGetD item key (.str "") = .null := by
    unfold dictGetD
    rw [hnull]
    rfl
  have hnotsome : ∀ t : TransnetTender, from_api_response item ≠ .ok (some t) := by
    intro t ht
    obtain ⟨-, s1, s2, s3, s4, s5, s6, s7, s8, s9,
      hs1, hs2, hs3, hs4, hs5, hs6, hs7, hs8, hs9, -⟩ := factory_ok_some_iff.mp ht
    simp only [List.mem_cons, List.not_mem_nil, or_false] at hkey
    rcases hkey with rfl | rfl | rfl | rfl | rfl | rfl | rfl | rfl | rfl
    · rw [hs1] at hD; cases hD
    · rw [hs2] at hD; cases hD
    · rw [hs3] at hD; cases hD
    · rw [hs4] at hD; cases hD
    · rw [hs5] at hD; cases hD
    · rw [hs6] at hD; cases hD
    · rw [hs7] at hD; cases hD
    · rw [hs8] at hD; cases hD
    · rw [hs9] at hD; cases hD
  have hnotnone : from_api_response item ≠ .ok none := by
    intro h0
    rw [factory_ok_none_iff, hid] at h0
    cases h0
  rcases factory_cases item with h | ⟨t, h⟩ | h
  · exact absurd h hnotnone
  · exact absurd h (hnotsome t)
  · exact ⟨h, processLoop_cons_attr h, hnotsome, by rw [h]; decide⟩

/-- C10, witness for the amended claim at a concrete failing input whose
null-valued key is `tenderNumber` (not the first text field). -/
theorem claim10_witness :
    from_api_response [("rowKey", JVal.str "T1"), ("tenderNumber", JVal.null)] =
      .error .attributeError ∧
    processLoop [[("rowKey", JVal.str "T1"), ("tenderNumber", JVal.null)]] =
      .error .attributeError := by
  have h := claim10_null_field_aborts
    [("rowKey", JVal.str "T1"), ("tenderNumber", JVal.null)] [] "tenderNumber"
    (by decide) (by decide) rfl
  exact ⟨h.1, h.2.1⟩

/-- C3: every record the factory constructs has fully normalized free-text
fields: no newline or carriage return, no edge whitespace, and each field is
a fixed point of its declared casing transform (title-case for title,
description, category, location and contact person; upper-case for tender
number, institution and tender type; lower-case for email); a field whose
key is absent from the raw item is the empty string; and each of the three
normalizers is idempotent. -/
theorem claim3_text_normalization :
    (∀ (item : RawItem) (t : TransnetTender), from_api_response item = .ok (some t) →
      normalizedText pyTitle t.title ∧ normalizedText pyTitle t.description ∧
      normalizedText pyUpper t.tender_number ∧ normalizedText pyUpper t.institution ∧
      normalizedText pyTitle t.category ∧ normalizedText pyUpper t.tender_type ∧
      normalizedText pyTitle t.location ∧ normalizedText pyLower t.email ∧
      normalizedText pyTitle t.contact_person ∧
      (dictLookup item "nameOfTender" = none → t.title = "") ∧
      (dictLookup item "descriptionOfTender" = none → t.description = "") ∧
      (dictLookup item "tenderNumber" = none → t.tender_number = "") ∧
      (dictLookup item "nameOfInstitution" = none → t.institution = "") ∧
      (dictLookup item "tenderCategory" = none → t.category = "") ∧
      (dictLookup item "tenderType" = none → t.tender_type = "") ∧
      (dictLookup item "locationOfService" = none → t.location = "") ∧
      (dictLookup item "contactPersonEmailAddress" = none → t.email = "") ∧
      (dictLookup item "contactPersonName" = none → t.contact_person = "")) ∧
    (∀ s, normTitle (normTitle s) = normTitle s) ∧
    (∀ s, normUpper (normUpper s) = normUpper s) ∧
    (∀ s, normLower (normLower s) = normLower s) := by
  refine ⟨?_, normTitle_idem, normUpper_idem, normLower_idem⟩
  intro item t h
  obtain ⟨-, s1, s2, s3, s4, s5, s6, s7, s8, s9,
    hs1, hs2, hs3, hs4, hs5, hs6, hs7, hs8, hs9, rfl⟩ := factory_ok_some_iff.mp h
  refine ⟨normTitle_normalized s1, normTitle_normalized s2, normUpper_normalized s3,
    normUpper_normalized s4, normTitle_normalized s5, normUpper_normalized s6,
    normTitle_normalized s7, normLower_normalized s8, normTitle_normalized s9,
    ?_, ?_, ?_, ?_, ?_, ?_, ?_, ?_, ?_⟩
  · intro habs
    have h0 := dictGetD_of_lookup_none (JVal.str "") habs
    rw [hs1, JVal.str.injEq] at h0
    subst h0
    rfl
  · intro habs
    have h0 := dictGetD_of_lookup_none (JVal.str "") habs
    rw [hs2, JVal.str.injEq] at h0
    subst h0
    rfl
  · intro habs
    have h0 := dictGetD_of_lookup_none (JVal.str "") habs
    rw [hs3, JVal.str.injEq] at h0
    subst h0
    rfl
  · intro habs
    have h0 := dictGetD_of_lookup_none (JVal.str "") habs
    rw [hs4, JVal.str.injEq] at h0
    subst h0
    rfl
  · intro habs
    have h0 := dictGetD_of_lookup_none (JVal.str "") habs
    rw [hs5, JVal.str.injEq] at h0
    subst h0
    rfl
  · intro habs
    have h0 := dictGetD_of_lookup_none (JVal.str "") habs
    rw [hs6, JVal.str.injEq] at h0
    subst h0
    rfl
  · intro habs
    have h0 := dictGetD_of_lookup_none (JVal.str "") habs
    rw [hs7, JVal.str.injEq] at h0
    subst h0
    rfl
  · intro habs
    have h0 := dictGetD_of_lookup_none (JVal.str "") habs
    rw [hs8, JVal.str.injEq] at h0
    subst h0
    rfl
  · intro habs
    have h0 := dictGetD_of_lookup_none (JVal.str "") habs
    rw [hs9, JVal.str.injEq] at h0
    subst h0
    rfl

/-- C3, witness: a messy title (case noise, embedded newline, carriage
return, edge blanks) comes out title-cased, single-line and trimmed. -/
theorem claim3_witness :
    normalizedText pyTitle "Hello World X" ∧
    normTitle "  heLLo\nWORLD\r x " = "Hello World X" :=
  ⟨(claim3_text_normalization.1
      [("rowKey", JVal.str "1"), ("nameOfTender", JVal.str "  heLLo\nWORLD\r x ")]
      (builtRecord [("rowKey", JVal.str "1"),
        ("nameOfTender", JVal.str "  heLLo\nWORLD\r x ")]
        "  heLLo\nWORLD\r x " "" "" "" "" "" "" "" "")
      (by decide)).1,
    by decide⟩

/-- C4: each date field of a constructed record is exactly the result of
the total guarded parse of its own raw value (so the two fields are
independent and parsing one cannot affect the other); the `try/except
(TypeError, ValueError)` block always ends normally (no exception escapes);
absence, emptiness and malformed strings give `None`; a well-formed string
in the format `%m/%d/%Y %I:%M:%S %p` gives the corresponding timestamp. -/
theorem claim4_date_parsing :
    (∀ (item : RawItem) (t : TransnetTender), from_api_response item = .ok (some t) →
      t.published_date = parseDateField (dictGet item "publishedDate") ∧
      t.closing_date = parseDateField (dictGet item "closingDate")) ∧
    (∀ v : JVal, catchDateErr (dateFieldTry v) = .ok (parseDateField v)) ∧
    parseDateField .null = none ∧
    parseDateField (.str "") = none ∧
    parseDateField (.str "13/45/2025 99:00:00 XM") = none ∧
    parseDateField (.str "07/15/2025 02:30:00 PM") =
      some ⟨2025, 7, 15, 14, 30, 0⟩ := by
  refine ⟨?_, date_block_total, rfl, by decide, by decide, by decide⟩
  intro item t h
  obtain ⟨-, s1, s2, s3, s4, s5, s6, s7, s8, s9,
    hs1, hs2, hs3, hs4, hs5, hs6, hs7, hs8, hs9, rfl⟩ := factory_ok_some_iff.mp h
  exact ⟨rfl, rfl⟩

/-- C4, witness: the scenario-C style item (malformed published date, valid
closing date) still yields a record, publishing `None` and parsing the
closing date, each from its own field. -/
theorem claim4_witness :
    (builtRecord [("rowKey", JVal.str "T"),
        ("publishedDate", JVal.str "13/45/2025 99:00:00 XM"),
        ("closingDate", JVal.str "07/15/2025 02:30:00 PM")]
      "" "" "" "" "" "" "" "" "").published_date =
      parseDateField (dictGet [("rowKey", JVal.str "T"),
        ("publishedDate", JVal.str "13/45/2025 99:00:00 XM"),
        ("closingDate", JVal.str "07/15/2025 02:30:00 PM")] "publishedDate") ∧
    (builtRecord [("rowKey", JVal.str "T"),
        ("publishedDate", JVal.str "13/45/2025 99:00:00 XM"),
        ("closingDate", JVal.str "07/15/2025 02:30:00 PM")]
      "" "" "" "" "" "" "" "" "").closing_date =
      parseDateField (dictGet [("rowKey", JVal.str "T"),
        ("publishedDate", JVal.str "13/45/2025 99:00:00 XM"),
        ("closingDate", JVal.str "07/15/2025 02:30:00 PM")] "closingDate") :=
  claim4_date_parsing.1 [("rowKey", JVal.str "T"),
      ("publishedDate", JVal.str "13/45/2025 99:00:00 XM"),
      ("closingDate", JVal.str "07/15/2025 02:30:00 PM")]
    (builtRecord [("rowKey", JVal.str "T"),
        ("publishedDate", JVal.str "13/45/2025 99:00:00 XM"),
        ("closingDate", JVal.str "07/15/2025 02:30:00 PM")]
      "" "" "" "" "" "" "" "" "") (by decide)

/-- C8: for every constructed record, a truthy string attachment value `u`
yields exactly one supporting document named `Tender Attachment` with url
`u` unchanged; an absent or empty attachment yields no documents; and the
document list never holds more than one element. -/
theorem claim8_attachment_documents :
    ∀ (item : RawItem) (t : TransnetTender), from_api_response item = .ok (some t) →
      (∀ u : String, dictGet item "attachment" = .str u → u ≠ "" →
        t.supporting_docs = [⟨"Tender Attachment", .str u⟩]) ∧
      ((dictLookup item "attachment" = none ∨
        dictLookup item "attachment" = some (.str "")) → t.supporting_docs = []) ∧
      t.supporting_docs.length ≤ 1 := by
  intro item t h
  obtain ⟨-, s1, s2, s3, s4, s5, s6, s7, s8, s9,
    hs1, hs2, hs3, hs4, hs5, hs6, hs7, hs8, hs9, rfl⟩ := factory_ok_some_iff.mp h
  refine ⟨?_, ?_, ?_⟩
  · intro u hu hne
    show (if pyTruthy (dictGet item "attachment") then
      [⟨"Tender Attachment", dictGet item "attachment"⟩] else ([] : List SupportingDoc)) =
      [⟨"Tender Attachment", .str u⟩]
    rw [hu, if_pos (by simp [pyTruthy, hne])]
  · intro habs
    have hfalse : pyTruthy (dictGet item "attachment") = false := by
      rcases habs with habs | habs
      · unfold dictGet
        rw [habs]
        rfl
      · unfold dictGet
        rw [habs]
        rfl
    show (if pyTruthy (dictGet item "attachment") then
      [⟨"Tender Attachment", dictGet item "attachment"⟩] else ([] : List SupportingDoc)) = []
    rw [if_neg (by rw [hfalse]; decide)]
  · show (if pyTruthy (dictGet item "attachment") then
      [⟨"Tender Attachment", dictGet item "attachment"⟩] else ([] : List SupportingDoc)).length ≤ 1
    split
    · simp
    · simp

/-- C8, witness at a concrete item with an attachment link. -/
theorem claim8_witness :
    (builtRecord [("rowKey", JVal.str "T"), ("attachment", JVal.str "http://x/a.pdf")]
      "" "" "" "" "" "" "" "" "").supporting_docs =
      [⟨"Tender Attachment", JVal.str "http://x/a.pdf"⟩] :=
  (claim8_attachment_documents
    [("rowKey", JVal.str "T"), ("attachment", JVal.str "http://x/a.pdf")]
    (builtRecord [("rowKey", JVal.str "T"), ("attachment", JVal.str "http://x/a.pdf")]
      "" "" "" "" "" "" "" "" "") (by decide)).1 "http://x/a.pdf" rfl (by decide)

/-- C5: the batching comprehension is a pure chunking function: it yields
`ceil(N/10)` groups whose in-order concatenation is the input, every group
has at most 10 elements, every group except possibly the last has exactly
10, a last group (of a nonempty input) has between 1 and 10 elements, and
the empty input yields no groups. -/
theorem claim5_batching {α : Type} (l : List α) :
    (chunk10 l).length = (l.length + 9) / 10 ∧
    (chunk10 l).flatten = l ∧
    (∀ g ∈ chunk10 l, g.length ≤ 10) ∧
    (∀ (i : Nat) (g : List α), i + 1 < (chunk10 l).length →
      (chunk10 l)[i]? = some g → g.length = 10) ∧
    (l ≠ [] → ∀ g, (chunk10 l).getLast? = some g → 1 ≤ g.length ∧ g.length ≤ 10) ∧
    chunk10 ([] : List α) = [] :=
  ⟨chunk10_length l, chunk10_flatten l, fun _ hg => mem_chunk10_le hg,
    fun _ _ hi hg => chunk10_full hi hg, fun h _ hg => chunk10_getLast h hg, chunk10_nil⟩

/-- C5, witness: 25 records batch into 3 groups that concatenate back. -/
theorem claim5_witness :
    (chunk10 (List.range 25)).length = 3 ∧
    (chunk10 (List.range 25)).flatten = List.range 25 :=
  ⟨((claim5_batching (List.range 25)).1).trans (by decide),
    (claim5_batching (List.range 25)).2.1⟩

/-- C6: for every transport behaviour, the final `sent_count` is the sum
over the enumerated groups of the confirmed-successful count that the
transport reported for that group (zero for a raised call); every nonempty
group is attempted (gets exactly one transport call) regardless of other
groups' failures; an empty group gets no transport call; and no group index
is ever called twice (nothing is retried). -/
theorem claim6_dispatch_aggregate :
    ∀ (t : SqsTransport) (batches : List (List TenderDict)),
      (sqsLoop t 0 batches).1 =
        ((List.enumFrom 0 batches).map fun p => groupSent t p.1 p.2).sum ∧
      (∀ (i : Nat) (b : List TenderDict), batches[i]? = some b → b ≠ [] →
        i ∈ (sqsLoop t 0 batches).2) ∧
      (∀ (i : Nat) (b : List TenderDict), batches[i]? = some b → b = [] →
        i ∉ (sqsLoop t 0 batches).2) ∧
      (∀ i : Nat, ((sqsLoop t 0 batches).2).count i ≤ 1) := by
  intro t batches
  refine ⟨sqsLoop_fst t batches 0, ?_, ?_, fun i => sqsLoop_calls_count t batches 0 i⟩
  · intro i b hb hne
    have := (sqsLoop_mem_calls t batches 0 i b hb).1 hne
    simpa using this
  · intro i b hb he
    have := (sqsLoop_mem_calls t batches 0 i b hb).2 he
    simpa using this

/-- C6, witness: an all-confirming transport over the groups
`[[d], [], [d]]` (`d` one serialized tender): the sent-count equals the
per-group sum, group 0 is called, the empty group 1 is not. -/
theorem claim6_witness :
    (sqsLoop (fun es => .ok ⟨es.map SqsEntry.id, []⟩) 0
        [[TransnetTender.to_dict
            ⟨"", "", "Transnet", none, none, [], [], "", "", "", "", "", "", ""⟩], [],
          [TransnetTender.to_dict
            ⟨"", "", "Transnet", none, none, [], [], "", "", "", "", "", "", ""⟩]]).1 =
      ((List.enumFrom 0
          [[TransnetTender.to_dict
              ⟨"", "", "Transnet", none, none, [], [], "", "", "", "", "", "", ""⟩], [],
            [TransnetTender.to_dict
              ⟨"", "", "Transnet", none, none, [], [], "", "", "", "", "", "", ""⟩]]).map
        fun p => groupSent (fun es => .ok ⟨es.map SqsEntry.id, []⟩) p.1 p.2).sum ∧
    0 ∈ (sqsLoop (fun es => .ok ⟨es.map SqsEntry.id, []⟩) 0
        [[TransnetTender.to_dict
            ⟨"", "", "Transnet", none, none, [], [], "", "", "", "", "", "", ""⟩], [],
          [TransnetTender.to_dict
            ⟨"", "", "Transnet", none, none, [], [], "", "", "", "", "", "", ""⟩]]).2 ∧
    1 ∉ (sqsLoop (fun es => .ok ⟨es.map SqsEntry.id, []⟩) 0
        [[TransnetTender.to_dict
            ⟨"", "", "Transnet", none, none, [], [], "", "", "", "", "", "", ""⟩], [],
          [TransnetTender.to_dict
            ⟨"", "", "Transnet", none, none, [], [], "", "", "", "", "", "", ""⟩]]).2 :=
  ⟨(claim6_dispatch_aggregate (fun es => .ok ⟨es.map SqsEntry.id, []⟩)
      [[TransnetTender.to_dict
          ⟨"", "", "Transnet", none, none, [], [], "", "", "", "", "", "", ""⟩], [],
        [TransnetTender.to_dict
          ⟨"", "", "Transnet", none, none, [], [], "", "", "", "", "", "", ""⟩]]).1,
    (claim6_dispatch_aggregate (fun es => .ok ⟨es.map SqsEntry.id, []⟩)
      [[TransnetTender.to_dict
          ⟨"", "", "Transnet", none, none, [], [], "", "", "", "", "", "", ""⟩], [],
        [TransnetTender.to_dict
          ⟨"", "", "Transnet", none, none, [], [], "", "", "", "", "", "", ""⟩]]).2.1 0
      [TransnetTender.to_dict
        ⟨"", "", "Transnet", none, none, [], [], "", "", "", "", "", "", ""⟩]
      rfl (by simp),
    (claim6_dispatch_aggregate (fun es => .ok ⟨es.map SqsEntry.id, []⟩)
      [[TransnetTender.to_dict
          ⟨"", "", "Transnet", none, none, [], [], "", "", "", "", "", "", ""⟩], [],
        [TransnetTender.to_dict
          ⟨"", "", "Transnet", none, none, [], [], "", "", "", "", "", "", ""⟩]]).2.2.1 1
      [] rfl rfl⟩

/-- C9, counterexample: a successful run that confirmed 1 sent message
returns the fixed completion body, which does not contain the sent-count
(the digit string "1" is not a substring): the claim that the completion
message contains the aggregate sent-count is false. -/
theorem claim9_counterexample :
    transnetRun (.ok [[("rowKey", JVal.str "1")]])
        (fun es => .ok ⟨es.map SqsEntry.id, []⟩) =
      .ok (1, ⟨200, .messageBody "Tender data processed and sent to SQS queue."⟩) ∧
    strContains "Tender data processed and sent to SQS queue." "1" = false := by
  constructor
  · decide
  · decide

/-- C9, amended: on a fetch failure the run returns status 502 with the
matching error description and the transport is never consulted (the result
does not depend on it); on a successful run the handler returns status 200
with a fixed completion message that does not carry the sent-count (the
count is only logged). -/
theorem claim9_run_summary :
    (∀ (t₁ t₂ : SqsTransport) (e : FetchErr),
      transnetRun (.error e) t₁ = transnetRun (.error e) t₂) ∧
    (∀ t : SqsTransport, transnetRun (.error .requestException) t =
      .ok (0, ⟨502, .errorBody "Failed to fetch data from source API"⟩)) ∧
    (∀ t : SqsTransport, transnetRun (.error .jsonDecodeError) t =
      .ok (0, ⟨502, .errorBody "Invalid JSON response from source API"⟩)) ∧
    (∀ (items : List RawItem) (t : SqsTransport) (n : Nat) (r : HandlerResp),
      transnetRun (.ok items) t = .ok (n, r) →
      r = ⟨200, .messageBody "Tender data processed and sent to SQS queue."⟩) := by
  refine ⟨?_, ?_, ?_, ?_⟩
  · intro t₁ t₂ e
    cases e <;> rfl
  · intro t
    rfl
  · intro t
    rfl
  · intro items t n r h
    exact transnetRun_ok_resp h

/-- C9, witness for the amended claim at concrete runs. -/
theorem claim9_witness :
    transnetRun (.error .requestException) (fun _ => .ok ⟨[], []⟩) =
      .ok (0, ⟨502, .errorBody "Failed to fetch data from source API"⟩) ∧
    (⟨200, .messageBody "Tender data processed and sent to SQS queue."⟩ : HandlerResp) =
      ⟨200, .messageBody "Tender data processed and sent to SQS queue."⟩ :=
  ⟨claim9_run_summary.2.1 (fun _ => .ok ⟨[], []⟩),
    claim9_run_summary.2.2.2 [] (fun _ => .ok ⟨[], []⟩) 0
      ⟨200, .messageBody "Tender data processed and sent to SQS queue."⟩ (by decide)⟩

end Transnet
